import Mathlib

/-! # TapTo reader session: shared state and session loop

A shallow embedding of `pkg/daemon/state/state.go` (the synchronized `State`)
and of `pkg/daemon/reader.go` (`shouldExit`, `tokenHash`, and the body of the
`for` loop of `readerManager`), followed by the properties proved about them.

Conventions of the embedding.

* A Go `string` is a Lean `String`; `time.Time` is an instant on one integer
  time line counted in nanoseconds from the zero `time.Time`; a
  `time.Duration` is an `Int` number of nanoseconds.
* A method with a pointer receiver that mutates the `State` returns the new
  `State` together with the trace of what it did (lock, unlock, file system
  call, update hook call).  Getters only read, and are plain functions.
* The update hook is an observer: it is called with the `State` and its own
  actions are outside the model.
* One pass of the `for` loop is a function from the loop locals, the `State`
  and what the outside world answers during the pass (the platform, the
  clock, the received event) to the new locals, the new `State` and the list
  of calls the pass made on the platform and on the launch queue.  A nil
  pointer dereference is the result `none`.
-/

namespace TapTo

/-! ## Time -/

/-- An instant, `time.Time`: nanoseconds since the zero value `time.Time{}`. -/
structure Time where
  ns : Int
  deriving DecidableEq, Repr

/-- The zero value `time.Time{}`. -/
def Time.zero : Time := ⟨0⟩

instance : Inhabited Time := ⟨Time.zero⟩

/-- Method `t.IsZero()`. -/
def Time.IsZero (t : Time) : Bool := t.ns == 0

/-- One second as a `time.Duration` (`time.Second`). -/
def Second : Int := 1000000000

/-- Largest `time.Duration` (`math.MaxInt64` nanoseconds). -/
def maxDuration : Int := 9223372036854775807

/-- Smallest `time.Duration` (`math.MinInt64` nanoseconds). -/
def minDuration : Int := -9223372036854775808

/-- Method `t.Sub(u)`: the duration `t-u`, saturated to the range of a
`time.Duration`. -/
def Time.Sub (t u : Time) : Int :=
  if t.ns - u.ns > maxDuration then maxDuration
  else if t.ns - u.ns < minDuration then minDuration
  else t.ns - u.ns

/-- Call `time.Since(t)` when the clock reads `now`: `now.Sub(t)`. -/
def Since (now t : Time) : Int := now.Sub t

/-- Conversion `int8(d.Seconds())` of a duration `d`, as the Go compiler does
it: the floating point number of seconds is truncated toward zero to an
integer, of which the low eight bits are kept as a signed byte.  (The number
of seconds is exact in floating point for every duration below 2^24 seconds.) -/
def int8Seconds (d : Int) : Int :=
  (Int.tdiv d Second + 128) % 256 - 128

/-! ## Tokens and the shared state (`state.go`) -/

/-- Struct `Token` of `state.go`: `Type` (here `Typ`), `UID`, `Text` and
`ScanTime`.  Equality of tokens (Go `==`) is equality of all fields.

Modelled from the spec: the last field, the tag `FromApi`, which `reader.go`
reads from the last scanned token.  The declaration of the token type that
`reader.go` uses is not part of the sources; the data model of the
specification has the last scanned token "tagged with a `fromApi` flag when
injected by an external trigger". -/
structure Token where
  Typ : String
  UID : String
  Text : String
  ScanTime : Time
  FromApi : Bool
  deriving DecidableEq, Repr

/-- The zero value `Token{}`. -/
def Token.zero : Token := ⟨"", "", "", Time.zero, false⟩

instance : Inhabited Token := ⟨Token.zero⟩

/-- Struct `State` without its mutex.  `updateHook` is `none` for a nil
pointer and `some h` for a pointer to the hook `h`; the two maps are
association lists. -/
structure State where
  updateHook : Option Nat
  readerConnected : Bool
  readerType : String
  activeCard : Token
  lastScanned : Token
  stopService : Bool
  disableLauncher : Bool
  writeRequest : String
  dbLoadTime : Time
  uidMap : List (String × String)
  textMap : List (String × String)
  deriving DecidableEq, Repr

/-- The zero value `State{}`, as the daemon creates it at startup. -/
def State.zero : State :=
  { updateHook := none, readerConnected := false, readerType := "",
    activeCard := Token.zero, lastScanned := Token.zero, stopService := false,
    disableLauncher := false, writeRequest := "", dbLoadTime := Time.zero,
    uidMap := [], textMap := [] }

instance : Inhabited State := ⟨State.zero⟩

/-- What a method of `State` does besides changing fields: it takes and
releases the exclusive lock `mu`, creates or removes the marker file
`mister.DisableLaunchFile`, and calls the update hook `h` with the `State`
as it is at the time of the call. -/
inductive StEvent where
  | Lock
  | Unlock
  | CreateFile
  | RemoveFile
  | Hook (h : Nat) (arg : State)
  deriving DecidableEq, Repr

/-- The tail of every setter: `if s.updateHook != nil { (*s.updateHook)(s) }`. -/
def State.callHook (s : State) : List StEvent :=
  match s.updateHook with
  | some h => [StEvent.Hook h s]
  | none => []

/-- Method `SetUpdateHook`; the unlock is deferred to the return. -/
def State.SetUpdateHook (s : State) (hook : Option Nat) : State × List StEvent :=
  ({ s with updateHook := hook }, [StEvent.Lock, StEvent.Unlock])

/-- Method `SetActiveCard`. -/
def State.SetActiveCard (s : State) (card : Token) : State × List StEvent :=
  if s.activeCard = card then
    (s, [StEvent.Lock, StEvent.Unlock])
  else
    let s1 := { s with activeCard := card }
    let s2 := if s1.activeCard.UID ≠ "" then { s1 with lastScanned := card } else s1
    (s2, [StEvent.Lock, StEvent.Unlock] ++ s2.callHook)

/-- Method `GetActiveCard`. -/
def State.GetActiveCard (s : State) : Token := s.activeCard

/-- Method `GetLastScanned`. -/
def State.GetLastScanned (s : State) : Token := s.lastScanned

/-- Method `StopService`. -/
def State.StopService (s : State) : State × List StEvent :=
  let s1 := { s with stopService := true }
  (s1, [StEvent.Lock, StEvent.Unlock] ++ s1.callHook)

/-- Method `ShouldStopService`. -/
def State.ShouldStopService (s : State) : Bool := s.stopService

/-- Method `DisableLauncher`; a failure of `os.Create` is only logged. -/
def State.DisableLauncher (s : State) : State × List StEvent :=
  let s1 := { s with disableLauncher := true }
  (s1, [StEvent.Lock, StEvent.CreateFile, StEvent.Unlock] ++ s1.callHook)

/-- Method `EnableLauncher`; a failure of `os.Remove` is only logged. -/
def State.EnableLauncher (s : State) : State × List StEvent :=
  let s1 := { s with disableLauncher := false }
  (s1, [StEvent.Lock, StEvent.RemoveFile, StEvent.Unlock] ++ s1.callHook)

/-- Method `IsLauncherDisabled`. -/
def State.IsLauncherDisabled (s : State) : Bool := s.disableLauncher

/-- Method `GetDB`. -/
def State.GetDB (s : State) : List (String × String) × List (String × String) :=
  (s.uidMap, s.textMap)

/-- Method `GetDBLoadTime`. -/
def State.GetDBLoadTime (s : State) : Time := s.dbLoadTime

/-- Method `SetDB`; `now` is what `time.Now()` returns. -/
def State.SetDB (s : State) (now : Time) (uidMap textMap : List (String × String)) :
    State × List StEvent :=
  let s1 := { s with dbLoadTime := now, uidMap := uidMap, textMap := textMap }
  (s1, [StEvent.Lock, StEvent.Unlock] ++ s1.callHook)

/-- Method `SetReaderConnected`. -/
def State.SetReaderConnected (s : State) (rt : String) : State × List StEvent :=
  let s1 := { s with readerConnected := true, readerType := rt }
  (s1, [StEvent.Lock, StEvent.Unlock] ++ s1.callHook)

/-- Method `SetReaderDisconnected`. -/
def State.SetReaderDisconnected (s : State) : State × List StEvent :=
  let s1 := { s with readerConnected := false, readerType := "" }
  (s1, [StEvent.Lock, StEvent.Unlock] ++ s1.callHook)

/-- Method `GetReaderStatus`. -/
def State.GetReaderStatus (s : State) : Bool × String := (s.readerConnected, s.readerType)

/-- Method `SetWriteRequest`. -/
def State.SetWriteRequest (s : State) (req : String) : State × List StEvent :=
  let s1 := { s with writeRequest := req }
  (s1, [StEvent.Lock, StEvent.Unlock] ++ s1.callHook)

/-- Method `GetWriteRequest`. -/
def State.GetWriteRequest (s : State) : String := s.writeRequest

/-- The states the program can hold: the zero value, changed by the exported
setters only (the fields of `State` are not exported). -/
inductive State.Reachable : State → Prop where
  | zero : State.Reachable State.zero
  | setUpdateHook {s : State} (hook : Option Nat) :
      State.Reachable s → State.Reachable (s.SetUpdateHook hook).1
  | setActiveCard {s : State} (card : Token) :
      State.Reachable s → State.Reachable (s.SetActiveCard card).1
  | stopService {s : State} : State.Reachable s → State.Reachable s.StopService.1
  | disableLauncher {s : State} : State.Reachable s → State.Reachable s.DisableLauncher.1
  | enableLauncher {s : State} : State.Reachable s → State.Reachable s.EnableLauncher.1
  | setDB {s : State} (now : Time) (uidMap textMap : List (String × String)) :
      State.Reachable s → State.Reachable (s.SetDB now uidMap textMap).1
  | setReaderConnected {s : State} (rt : String) :
      State.Reachable s → State.Reachable (s.SetReaderConnected rt).1
  | setReaderDisconnected {s : State} :
      State.Reachable s → State.Reachable s.SetReaderDisconnected.1
  | setWriteRequest {s : State} (req : String) :
      State.Reachable s → State.Reachable (s.SetWriteRequest req).1

/-! ## The session loop (`reader.go`) -/

/-- Modelled from the spec: interface `platforms.Platform`, declared in a
package that is not part of the sources ("platform capability set:
`isLauncherActive() -> bool`, [...] `getActiveLauncherName() -> string`").
It is the platform as one pass of the loop sees it: what its two queries
answer during the pass.  (`KillLauncher`, `PlayFailSound` and
`PlaySuccessSound` are calls whose result the loop ignores; they appear as
`Effect`s.) -/
structure Platform where
  IsLauncherActive : Bool
  GetActiveLauncher : String
  deriving DecidableEq, Repr

/-- Modelled from the spec: type `config.UserConfig`, declared in a package
that is not part of the sources ("exit-on-removal enabled (bool), exit delay
(integer seconds), exit-launcher exclusion list").  It is the configuration
as the loop sees it: what its getters return.  `GetExitGameDelay` returns an
`int8`, the type `shouldExit` compares it in. -/
structure UserConfig where
  GetExitGame : Bool
  GetExitGameDelay : Int
  GetExitGameBlocklist : List String
  deriving DecidableEq, Repr

/-- Modelled from the spec: function `inExitGameBlocklist`, called by
`shouldExit` and defined in a file of the package that is not part of the
sources: "the active launcher is [...] present in a configured exclusion
list". -/
def inExitGameBlocklist (pl : Platform) (cfg : UserConfig) : Bool :=
  cfg.GetExitGameBlocklist.contains pl.GetActiveLauncher

/-- Function `shouldExit`; `now` is what the clock reads when
`time.Since(removalTime)` is evaluated. -/
def shouldExit (pl : Platform) (candidateForRemove : Bool) (cfg : UserConfig) (st : State)
    (removalTime : Time) (now : Time) : Bool :=
  if !pl.IsLauncherActive then
    false
  else if !candidateForRemove || st.GetLastScanned.FromApi || st.IsLauncherDisabled then
    false
  else
    let hasTimePassed : Bool :=
      if !removalTime.IsZero then
        decide (int8Seconds (Since now removalTime) ≥ cfg.GetExitGameDelay)
      else false
    if hasTimePassed && cfg.GetExitGame && !inExitGameBlocklist pl cfg then true else false

/-- Function `tokenHash`: the SHA-256 digest of `UID` followed by `Text`, as
a string.  The digest function of `crypto/sha256` is the parameter `sha256`. -/
def tokenHash (sha256 : String → String) (t : Token) : String :=
  sha256 (t.UID ++ t.Text)

/-- Modelled from the spec: struct `readers.Scan`, the element of the
channel `iq`, declared in a package that is not part of the sources ("scan
event: `{token: optional Token, error: optional Error}`").  `Token` is a
pointer, nil when the card was removed; `Error` is nil or an error, of which
the loop only tests whether it is nil. -/
structure Scan where
  Token : Option Token
  Error : Option String
  deriving DecidableEq, Repr

/-- What one pass of the loop receives: `connectReaders` fails with an error,
or the `select` delivers a scan from `iq` or a token from `lsq`. -/
inductive LoopEvent where
  | ConnectError (err : String)
  | Scanned (t : Scan)
  | Software (softwareToken : Token)
  deriving DecidableEq, Repr

/-- The variables of `readerManager` that live across passes of the loop. -/
structure Locals where
  lastError : Time
  candidateForRemove : Bool
  cardRemovalTime : Time
  loadedSoftware : String
  lastLauncherName : String
  newScanned : Option Token
  deriving DecidableEq, Repr

/-- The locals as declared before the loop. -/
def Locals.zero : Locals :=
  { lastError := Time.zero, candidateForRemove := false, cardRemovalTime := Time.zero,
    loadedSoftware := "", lastLauncherName := "", newScanned := none }

instance : Inhabited Locals := ⟨Locals.zero⟩

/-- The clock during one pass.  A pass reads the clock at most twice: `t1`
is the reading at its first call site (`time.Since(lastError)` in `playFail`,
or `time.Now()` when the removal countdown starts), `t2` the reading at its
second (`time.Now()` recorded in `lastError`, or `time.Since(removalTime)` in
`shouldExit`). -/
structure Clock where
  t1 : Time
  t2 : Time
  deriving DecidableEq, Repr

/-- The calls a pass makes on its collaborators: `time.Sleep`, the platform,
the launch queue `lq`, and what the setters of the `State` do. -/
inductive Effect where
  | Sleep
  | PlayFailSound
  | PlaySuccessSound
  | KillLauncher
  | Enqueue (t : Token)
  | OnState (e : StEvent)
  deriving DecidableEq, Repr

/-- Outcome of a pass: the locals and the `State` after it, and its calls in
order. -/
structure PassResult where
  locals : Locals
  st : State
  effects : List Effect
  deriving DecidableEq, Repr

/-- Closure `playFail`. -/
def playFail (clk : Clock) (lastError : Time) : List Effect :=
  if Since clk.t1 lastError > 1 * Second then [Effect.PlayFailSound] else []

/-- Lines 143-156 of `readerManager`, the removal countdown.  The result is
`none` when `*newScanned` is evaluated with `newScanned == nil`. -/
def removalCountdown (sha256 : String → String) (cfg : UserConfig) (clk : Clock)
    (l : Locals) : Option Locals :=
  if cfg.GetExitGame then
    if l.newScanned = none && l.candidateForRemove == false then
      some { l with cardRemovalTime := clk.t1, candidateForRemove := true }
    else if l.candidateForRemove then
      match l.newScanned with
      | none => none
      | some tok =>
        if tokenHash sha256 tok == l.loadedSoftware then
          some { l with cardRemovalTime := Time.zero, candidateForRemove := false }
        else some l
    else some l
  else some l

/-- Lines 161-164 of `readerManager`: `st.SetActiveCard(*newScanned)` when a
token was scanned. -/
def updateActiveCard (newScanned : Option Token) (st : State) : State × List StEvent :=
  match newScanned with
  | some tok => st.SetActiveCard tok
  | none => (st, [])

/-- Lines 173-180 of `readerManager`: forget the old values when the platform
is at its menu and a launcher name is remembered. -/
def menuReset (pl : Platform) (l : Locals) : Locals :=
  if !pl.IsLauncherActive && l.lastLauncherName != "" then
    { l with candidateForRemove := false, cardRemovalTime := Time.zero, loadedSoftware := "" }
  else l

/-- Condition of line 204: a token was scanned and it is the loaded software. -/
def isLoadedSoftware (sha256 : String → String) (l : Locals) : Bool :=
  match l.newScanned with
  | some tok => l.loadedSoftware == tokenHash sha256 tok
  | none => false

/-- Lines 223-227 of `readerManager`: enqueue the scanned token, if any. -/
def enqueueScanned (newScanned : Option Token) : List Effect :=
  match newScanned with
  | some tok => [Effect.Enqueue tok]
  | none => []

/-- Lines 158-227 of `readerManager`: what a pass does with a scan once the
removal countdown is updated, from the locals `l1` and the state `st`. -/
def processScanned (sha256 : String → String) (pl : Platform) (cfg : UserConfig)
    (clk : Clock) (l1 : Locals) (st : State) : PassResult :=
  -- lines 161-164
  let st1 := (updateActiveCard l1.newScanned st).1
  let fx := (updateActiveCard l1.newScanned st).2.map Effect.OnState
  if shouldExit pl l1.candidateForRemove cfg st1 l1.cardRemovalTime clk.t2 then
    -- lines 167-172
    ⟨{ l1 with candidateForRemove := false, cardRemovalTime := Time.zero,
               loadedSoftware := "" },
     st1, fx ++ [Effect.KillLauncher]⟩
  else
    -- lines 173-182
    let l2 := { menuReset pl l1 with lastLauncherName := pl.GetActiveLauncher }
    if isLoadedSoftware sha256 l2 then
      -- lines 204-209
      ⟨{ l2 with candidateForRemove := false }, st1, fx⟩
    else if st1.IsLauncherDisabled then
      -- lines 211-212
      ⟨l2, st1, fx⟩
    else
      -- lines 214-227
      ⟨{ l2 with cardRemovalTime := Time.zero, candidateForRemove := false },
       st1, fx ++ [Effect.PlaySuccessSound] ++ enqueueScanned l2.newScanned⟩

/-- One pass of the body of the `for` loop of `readerManager` (lines 120-227),
from the locals `l` and the state `st`.  Of `connectReaders` the pass sees
whether it failed; the reader handle that it stores is not a field of the
`State` of `state.go`. -/
def readerManagerPass (sha256 : String → String) (pl : Platform) (cfg : UserConfig)
    (clk : Clock) (ev : LoopEvent) (l : Locals) (st : State) : Option PassResult :=
  match ev with
  | LoopEvent.ConnectError _ =>
    -- lines 120-125
    some ⟨l, st, [Effect.Sleep]⟩
  | LoopEvent.Software softwareToken =>
    -- lines 137-140
    some ⟨{ l with loadedSoftware := tokenHash sha256 softwareToken }, st, []⟩
  | LoopEvent.Scanned t =>
    if t.Error.isSome then
      -- lines 130-135
      some ⟨{ l with lastError := clk.t2 }, st, playFail clk l.lastError⟩
    else
      -- line 136, then lines 143-156, then lines 158-227
      match removalCountdown sha256 cfg clk { l with newScanned := t.Token } with
      | none => none
      | some l1 => some (processScanned sha256 pl cfg clk l1 st)

/-- What the outside world gives to one pass of the loop. -/
structure PassInput where
  pl : Platform
  clk : Clock
  ev : LoopEvent
  deriving DecidableEq, Repr

/-- The loop of `readerManager` over the passes whose inputs are listed: each
pass with its outcome, in order.  The loop ends when `st.ShouldStopService()`
holds at the head of a pass; the result is `none` when a pass dereferences a
nil pointer.  (What follows the loop, the closing of the reader, is not part
of it.) -/
def readerManager (sha256 : String → String) (cfg : UserConfig) :
    List PassInput → Locals → State → Option (List (PassInput × PassResult))
  | [], _, _ => some []
  | i :: rest, l, st =>
    if st.ShouldStopService then some []
    else
      match readerManagerPass sha256 i.pl cfg i.clk i.ev l st with
      | none => none
      | some r =>
        match readerManager sha256 cfg rest r.locals r.st with
        | none => none
        | some rs => some ((i, r) :: rs)

/-- All calls of a run, in order. -/
def runEffects (rs : List (PassInput × PassResult)) : List Effect :=
  rs.flatMap (fun p => p.2.effects)

/-- The clock readings at which the passes of a run called `PlayFailSound`:
the reading `t1` that `playFail` compared with `lastError`. -/
def failSoundTimes (rs : List (PassInput × PassResult)) : List Time :=
  (rs.filter (fun p => p.2.effects.contains Effect.PlayFailSound)).map (fun p => p.1.clk.t1)

/-- The pass receives a scan that carries an error. -/
def isScanError (i : PassInput) : Bool :=
  match i.ev with
  | LoopEvent.Scanned t => t.Error.isSome
  | _ => false

/-- The clock readings of the passes of a run, in the order in which they are
taken. -/
def clockReadings (inputs : List PassInput) : List Int :=
  inputs.flatMap (fun i => [i.clk.t1.ns, i.clk.t2.ns])

/-! ## Concrete inputs for the evaluations -/

/-- A stand-in for the digest function in evaluations on concrete inputs.
Its digests are never empty, as those of SHA-256 are 32 bytes long, and it is
injective, as SHA-256 is taken to be.  The loop only compares digests; every
property below that is not an evaluation is proved for every digest
function. -/
def toyDigest (s : String) : String := "sha256:" ++ s

/-- A card that launches a title. -/
def cardA : Token :=
  { Typ := "NTAG", UID := "04a1b2c3", Text := "**launch.system:snes",
    ScanTime := ⟨1700000000000000000⟩, FromApi := false }

/-- Another card. -/
def cardB : Token :=
  { Typ := "NTAG", UID := "04d4e5f6", Text := "**launch.system:genesis",
    ScanTime := ⟨1700000060000000000⟩, FromApi := false }

/-- The platform while a title runs. -/
def plGame : Platform := { IsLauncherActive := true, GetActiveLauncher := "SNES" }

/-- The platform at its menu. -/
def plMenu : Platform := { IsLauncherActive := false, GetActiveLauncher := "" }

/-- Exit on removal enabled, with a delay of 3 seconds and no blocklist. -/
def cfgExit3 : UserConfig :=
  { GetExitGame := true, GetExitGameDelay := 3, GetExitGameBlocklist := [] }

/-- Exit on removal enabled, with a delay of 5 seconds and no blocklist. -/
def cfgExit5 : UserConfig :=
  { GetExitGame := true, GetExitGameDelay := 5, GetExitGameBlocklist := [] }

/-- The state after the daemon, started from the zero state, has seen `cardA`. -/
def stCardA : State := (State.zero.SetActiveCard cardA).1

/-- The instant `s` seconds and `ms` milliseconds after 14 November 2023,
22:13:20 UTC, as the number of nanoseconds since the zero time that the
embedding uses for it. -/
def atSeconds (s ms : Int) : Time := ⟨1700000000000000000 + s * 1000000000 + ms * 1000000⟩

/-- A pass that reads the clock at `s` seconds and `ms` milliseconds, and a
millisecond later. -/
def clkAt (s ms : Int) : Clock := { t1 := atSeconds s ms, t2 := atSeconds s (ms + 1) }

/-- The card `cardA`, presented again 200 seconds after its first scan. -/
def cardAagain : Token := { cardA with ScanTime := atSeconds 200 0 }

/-- The locals once `cardA` was scanned while the title `SNES` ran and the
platform reported `cardA` as loaded software. -/
def localsLoadedA : Locals :=
  { lastError := Time.zero, candidateForRemove := false, cardRemovalTime := Time.zero,
    loadedSoftware := tokenHash toyDigest cardA, lastLauncherName := "SNES",
    newScanned := some cardA }

/-- The locals of `localsLoadedA` with a removal pending since `t0`. -/
def localsRemovedA : Locals :=
  { localsLoadedA with candidateForRemove := true, cardRemovalTime := atSeconds 100 0 }

/-- The state once `cardA` was scanned, a hook was registered and the
launcher was disabled. -/
def stDisabled : State := { stCardA with disableLauncher := true, updateHook := some 7 }

/-- The locals once the platform reported `cardA` as loaded software, before
any scan. -/
def localsOnlyLoadedA : Locals :=
  { Locals.zero with loadedSoftware := tokenHash toyDigest cardA }

/-- Three scans that carry an error, half a second and then a second and a
half apart. -/
def errorRun : List PassInput :=
  [ { pl := plGame, clk := clkAt 0 0, ev := LoopEvent.Scanned ⟨none, some "read failed"⟩ },
    { pl := plGame, clk := clkAt 0 500, ev := LoopEvent.Scanned ⟨none, some "read failed"⟩ },
    { pl := plGame, clk := clkAt 2 0, ev := LoopEvent.Scanned ⟨none, some "read failed"⟩ } ]

/-- The run of the exit-after-removal scenario while a title runs: `cardA`
is scanned, the platform reports `cardA` as loaded software 5 seconds later,
the card is removed at `t0`, 100 seconds after the scan, and the loop makes
its next pass on the event `ev` with the clock `clk`. -/
def exitScenario (ev : LoopEvent) (clk : Clock) : List PassInput :=
  [ { pl := plGame, clk := clkAt 0 0, ev := LoopEvent.Scanned ⟨some cardA, none⟩ },
    { pl := plGame, clk := clkAt 5 0, ev := LoopEvent.Software cardA },
    { pl := plGame, clk := clkAt 100 0, ev := LoopEvent.Scanned ⟨none, none⟩ },
    { pl := plGame, clk := clk, ev := ev } ]

/-! ## Calls of the setters as values, and the shape of their traces -/

/-- A call of an exported setter of `State`, with its arguments. -/
inductive StateOp where
  | SetUpdateHook (hook : Option Nat)
  | SetActiveCard (card : Token)
  | StopService
  | DisableLauncher
  | EnableLauncher
  | SetDB (now : Time) (uidMap textMap : List (String × String))
  | SetReaderConnected (rt : String)
  | SetReaderDisconnected
  | SetWriteRequest (req : String)
  deriving DecidableEq, Repr

/-- The setter that the call names, run on `s`. -/
def State.call (s : State) : StateOp → State × List StEvent
  | StateOp.SetUpdateHook hook => s.SetUpdateHook hook
  | StateOp.SetActiveCard card => s.SetActiveCard card
  | StateOp.StopService => s.StopService
  | StateOp.DisableLauncher => s.DisableLauncher
  | StateOp.EnableLauncher => s.EnableLauncher
  | StateOp.SetDB now uidMap textMap => s.SetDB now uidMap textMap
  | StateOp.SetReaderConnected rt => s.SetReaderConnected rt
  | StateOp.SetReaderDisconnected => s.SetReaderDisconnected
  | StateOp.SetWriteRequest req => s.SetWriteRequest req

/-- The state after a sequence of calls of setters.  (The getters change
nothing.) -/
def State.callAll (s : State) : List StateOp → State
  | [] => s
  | op :: ops => (s.call op).1.callAll ops

/-- The calls that mutate and notify: every setter but `SetUpdateHook`, and
`SetActiveCard` only with a token that is not the active card. -/
def StateOp.isMutatingSetter (s : State) : StateOp → Bool
  | StateOp.SetUpdateHook _ => false
  | StateOp.SetActiveCard card => decide (s.activeCard ≠ card)
  | _ => true

/-- The calls of the update hook in a trace, in order: which hook, and the
`State` it was passed. -/
def hookCalls : List StEvent → List (Nat × State)
  | [] => []
  | StEvent.Hook h arg :: tr => (h, arg) :: hookCalls tr
  | _ :: tr => hookCalls tr

/-- Where a method stands with the exclusive lock: not taken yet, held, or
released again. -/
inductive LockPhase where
  | idle
  | held
  | released
  deriving DecidableEq, Repr

/-- The trace keeps the lock discipline: the lock is taken only when it is
not held, released only when it is held, and the update hook is called only
once the lock has been taken and released again. -/
def hooksAfterRelease : LockPhase → List StEvent → Bool
  | _, [] => true
  | p, StEvent.Lock :: tr => p != LockPhase.held && hooksAfterRelease LockPhase.held tr
  | p, StEvent.Unlock :: tr => p == LockPhase.held && hooksAfterRelease LockPhase.released tr
  | p, StEvent.Hook _ _ :: tr => p == LockPhase.released && hooksAfterRelease p tr
  | p, StEvent.CreateFile :: tr => hooksAfterRelease p tr
  | p, StEvent.RemoveFile :: tr => hooksAfterRelease p tr

/-! ## Connecting the reader (`connectReaders` of `reader.go`) -/

/-- Modelled from the spec: interface `readers.Reader`, declared in a package
that is not part of the sources ("reader driver capability set:
`detect(hint) -> deviceId|empty`, `open(deviceId, eventSink) -> error|nil`,
`connected() -> bool`").  A reader is given by what its methods answer:
`Detect` is the device that `Detect(nil)` returns, `Open device` the error
that `Open(device, iq)` returns, `none` for nil. -/
structure Reader where
  Connected : Bool
  Detect : String
  Open : String → Option String

/-- Modelled from the spec: the `State` as `reader.go` uses it, with the
reader handle that its methods `GetReader` and `SetReader` return and store;
the two methods and the field are not in `state.go` ("store the new handle
in SharedState").  `reader` is `none` for a nil handle. -/
structure ReaderState where
  st : State
  reader : Option Reader

/-- Modelled from the spec: method `GetReader`, which is not in `state.go`. -/
def ReaderState.GetReader (s : ReaderState) : Option Reader := s.reader

/-- Modelled from the spec: method `SetReader`, which is not in `state.go`:
it stores the handle. -/
def ReaderState.SetReader (s : ReaderState) (reader : Reader) : ReaderState :=
  { s with reader := some reader }

/-- The calls `connectReaders` makes on the new reader and on the `State`. -/
inductive ReaderCall where
  | Detect
  | Open (device : String)
  | SetReader
  deriving DecidableEq, Repr

/-- Outcome of `connectReaders`: the error it returns (`none` for nil), the
`State` after it and its calls in order. -/
structure ConnectResult where
  err : Option String
  st : ReaderState
  calls : List ReaderCall

/-- Lines 78-83 of `connectReaders`: open the device and store the reader. -/
def openReader (reader : Reader) (device : String) (st : ReaderState)
    (calls : List ReaderCall) : ConnectResult :=
  match reader.Open device with
  | some err => ⟨some err, st, calls ++ [ReaderCall.Open device]⟩
  | none =>
    ⟨none, st.SetReader reader, calls ++ [ReaderCall.Open device, ReaderCall.SetReader]⟩

/-- Function `connectReaders`.  `newReader` is the reader that
`libnfc.NewReader(cfg)` returns and `connectionString` what
`cfg.GetConnectionString()` returns. -/
def connectReaders (newReader : Reader) (connectionString : String) (st : ReaderState) :
    ConnectResult :=
  let notConnected : Bool :=
    match st.GetReader with
    | none => true
    | some reader => !reader.Connected
  if notConnected then
    let reader := newReader
    let device := connectionString
    if device == "" then
      let device := reader.Detect
      if device == "" then
        ⟨some "no reader detected", st, [ReaderCall.Detect]⟩
      else openReader reader device st [ReaderCall.Detect]
    else openReader reader device st []
  else ⟨none, st, []⟩

/-- A reader that is connected. -/
def readerUp : Reader := { Connected := true, Detect := "", Open := fun _ => none }

/-- A reader that has lost its connection. -/
def readerDown : Reader := { Connected := false, Detect := "", Open := fun _ => none }

/-- A new reader that detects nothing and fails to open any device. -/
def readerNone : Reader :=
  { Connected := false, Detect := "", Open := fun _ => some "unable to open device" }

/-- A new reader that detects a device and opens it. -/
def readerFound : Reader :=
  { Connected := false, Detect := "pn532_uart:/dev/ttyUSB0", Open := fun _ => none }

/-! ## The fingerprint and the comparison over (uid, text) -/

/-- The comparison that the specification names as equivalent to the
fingerprint: "a plain structural-equality comparison over (uid, text)". -/
def sameUidText (t1 t2 : Token) : Bool :=
  t1.UID == t2.UID && t1.Text == t2.Text

/-- A card with a UID of 4 bytes, whose text starts with six hexadecimal
digits. -/
def cardShortUid : Token :=
  { Typ := "NTAG", UID := "04a1b2c3", Text := "d4e5f6**launch.system:snes",
    ScanTime := atSeconds 0 0, FromApi := false }

/-- A card with a UID of 7 bytes: the UID of `cardShortUid` followed by the
six digits that start its text. -/
def cardLongUid : Token :=
  { Typ := "NTAG", UID := "04a1b2c3d4e5f6", Text := "**launch.system:snes",
    ScanTime := atSeconds 300 0, FromApi := false }

/-- The locals once `cardShortUid` was scanned while the title `SNES` ran and
the platform reported it as loaded software. -/
def localsLoadedShortUid : Locals :=
  { lastError := Time.zero, candidateForRemove := false, cardRemovalTime := Time.zero,
    loadedSoftware := tokenHash toyDigest cardShortUid, lastLauncherName := "SNES",
    newScanned := some cardShortUid }

/-! ## The loop states that can be reached -/

/-- The locals that the loop can reach from the locals as declared before the
loop, through passes that are defined, whatever the platform, the
configuration, the event and the `State` of each pass are, with a clock whose
reading on line 147 is never the zero time. -/
inductive LoopReachable (sha256 : String → String) : Locals → Prop where
  | init : LoopReachable sha256 Locals.zero
  | pass {l : Locals} (pl : Platform) (cfg : UserConfig) (clk : Clock) (ev : LoopEvent)
      (st : State) (r : PassResult) :
      LoopReachable sha256 l → clk.t1.IsZero = false →
      readerManagerPass sha256 pl cfg clk ev l st = some r →
      LoopReachable sha256 r.locals

/-- The zero state with the launcher disabled. -/
def stZeroDisabled : State := State.zero.DisableLauncher.1

/-- The locals once a card was removed at `t0` while the launcher was
disabled and the title `SNES` ran: the removal is pending. -/
def localsPending : Locals :=
  { Locals.zero with candidateForRemove := true, cardRemovalTime := atSeconds 100 0,
                     lastLauncherName := "SNES" }

end TapTo

namespace TapTo

/-! ## Properties of the shared state -/

/-- In every state the program can hold, an active card with a UID is also
the last scanned card. -/
theorem State.Reachable.lastScanned_eq {s : State} (hs : s.Reachable) :
    s.activeCard.UID ≠ "" → s.lastScanned = s.activeCard := by
  induction hs with
  | zero => intro h; exact absurd rfl h
  | @setActiveCard s0 card _ ih =>
    intro h
    unfold State.SetActiveCard at h ⊢
    by_cases heq : s0.activeCard = card
    · rw [if_pos heq] at h ⊢
      exact ih h
    · rw [if_neg heq] at h ⊢
      by_cases hu : card.UID = ""
      · simp [hu] at h
      · simp [hu]
  | setUpdateHook _ _ ih => exact ih
  | stopService _ ih => exact ih
  | disableLauncher _ ih => exact ih
  | enableLauncher _ ih => exact ih
  | setDB _ _ _ _ ih => exact ih
  | setReaderConnected _ _ ih => exact ih
  | setReaderDisconnected _ ih => exact ih
  | setWriteRequest _ _ ih => exact ih

/-- C1: `SetActiveCard` with a token equal, field by field, to the active
card leaves the whole `State` as it is (so `activeCard` and `lastScanned` too)
and its trace holds no call of the update hook, whatever `updateHook` is. -/
theorem SetActiveCard_duplicate (s : State) (t : Token)
    (hTyp : t.Typ = s.activeCard.Typ) (hUID : t.UID = s.activeCard.UID)
    (hText : t.Text = s.activeCard.Text) (hScanTime : t.ScanTime = s.activeCard.ScanTime)
    (hFromApi : t.FromApi = s.activeCard.FromApi) :
    (s.SetActiveCard t).1 = s ∧ ∀ h arg, StEvent.Hook h arg ∉ (s.SetActiveCard t).2 := by
  have ht : s.activeCard = t := by
    cases t
    cases hc : s.activeCard
    simp_all
  simp [State.SetActiveCard, ht]

/-- Witness of C1: the state that holds `cardA`, with a hook registered, is
given `cardA` again. -/
theorem SetActiveCard_duplicate_witness :
    (({ stCardA with updateHook := some 7 } : State).SetActiveCard cardA).1
        = { stCardA with updateHook := some 7 }
      ∧ ∀ h arg, StEvent.Hook h arg ∉
          (({ stCardA with updateHook := some 7 } : State).SetActiveCard cardA).2 :=
  SetActiveCard_duplicate { stCardA with updateHook := some 7 } cardA rfl rfl rfl rfl rfl

/-- C2: for every `State` the program can hold, which is the zero value
changed by the exported setters (the fields of `State` are not exported, so
no caller builds a `State` otherwise), and every token `t`: after
`SetActiveCard t` with a non-empty `t.UID`, `GetLastScanned` returns `t`; and
with an empty `t.UID` it returns what it returned before, so a token with an
empty UID never overwrites `lastScanned`. -/
theorem SetActiveCard_lastScanned (s : State) (hs : s.Reachable) (t : Token) :
    (t.UID ≠ "" → (s.SetActiveCard t).1.GetLastScanned = t)
      ∧ (t.UID = "" → (s.SetActiveCard t).1.GetLastScanned = s.GetLastScanned) := by
  constructor
  · intro hu
    unfold State.SetActiveCard State.GetLastScanned
    split
    · rename_i heq
      have := hs.lastScanned_eq (by rw [heq]; exact hu)
      rw [this, heq]
    · simp [hu]
  · intro hu
    unfold State.SetActiveCard State.GetLastScanned
    split
    · rfl
    · simp [hu]

/-- Witness of C2: the state reached from the zero state by scanning `cardA`
is given `cardB`, which becomes the last scanned card; and it is given the
token without UID, which leaves `cardA` as the last scanned card. -/
theorem SetActiveCard_lastScanned_witness :
    stCardA.Reachable ∧ (stCardA.SetActiveCard cardB).1.GetLastScanned = cardB
      ∧ (stCardA.SetActiveCard Token.zero).1.GetLastScanned = stCardA.GetLastScanned :=
  ⟨State.Reachable.setActiveCard cardA State.Reachable.zero,
   (SetActiveCard_lastScanned stCardA
      (State.Reachable.setActiveCard cardA State.Reachable.zero) cardB).1 (by decide),
   (SetActiveCard_lastScanned stCardA
      (State.Reachable.setActiveCard cardA State.Reachable.zero) Token.zero).2 rfl⟩

/-! ## Properties of `shouldExit` -/

/-- For a duration that is not negative, the signed byte of its seconds is
never more than the duration. -/
theorem int8Seconds_mul_le (d : Int) (h : 0 ≤ d) : int8Seconds d * Second ≤ d := by
  unfold int8Seconds Second
  rw [Int.tdiv_eq_ediv h (by norm_num)]
  omega

/-- For a duration from 0 to less than 128 seconds, the signed byte of its
seconds is the whole number of seconds. -/
theorem int8Seconds_eq_of_lt (d : Int) (h : 0 ≤ d) (h128 : d < 128 * Second) :
    int8Seconds d = d / Second := by
  unfold int8Seconds Second at *
  rw [Int.tdiv_eq_ediv h (by norm_num)]
  omega

/-- Where the clock has not gone back, `time.Since` is not negative and not
more than the real elapsed time. -/
theorem Since_bounds (now t : Time) (h : t.ns ≤ now.ns) :
    0 ≤ Since now t ∧ Since now t ≤ now.ns - t.ns := by
  unfold Since Time.Sub maxDuration minDuration
  split
  · omega
  · split <;> omega

/-- The comparison of `playFail` holds only when more than a second has
really elapsed. -/
theorem Since_gt_second (now t : Time) (h : Since now t > 1 * Second) :
    t.ns + Second < now.ns := by
  unfold Since Time.Sub maxDuration minDuration Second at *
  split at h
  · omega
  · split at h <;> omega

theorem kill_not_mem_onState (xs : List StEvent) :
    Effect.KillLauncher ∉ xs.map Effect.OnState := by
  simp

theorem kill_not_mem_enqueueScanned (o : Option Token) :
    Effect.KillLauncher ∉ enqueueScanned o := by
  cases o <;> simp [enqueueScanned]

theorem kill_not_mem_playFail (clk : Clock) (t : Time) :
    Effect.KillLauncher ∉ playFail clk t := by
  unfold playFail
  split <;> simp

/-- Lines 158-227 call `KillLauncher` only when `shouldExit`, called as on
line 166, returned true. -/
theorem processScanned_kill {sha256 : String → String} {pl : Platform} {cfg : UserConfig}
    {clk : Clock} {l1 : Locals} {st : State}
    (hk : Effect.KillLauncher ∈ (processScanned sha256 pl cfg clk l1 st).effects) :
    shouldExit pl l1.candidateForRemove cfg (updateActiveCard l1.newScanned st).1
      l1.cardRemovalTime clk.t2 = true := by
  unfold processScanned at hk
  dsimp only at hk
  split at hk
  · assumption
  · split at hk
    · exact absurd hk (kill_not_mem_onState _)
    · split at hk
      · exact absurd hk (kill_not_mem_onState _)
      · simp only [List.mem_append, List.mem_singleton] at hk
        rcases hk with (hk | hk) | hk
        · exact absurd hk (kill_not_mem_onState _)
        · cases hk
        · exact absurd hk (kill_not_mem_enqueueScanned _)

/-- A pass calls `KillLauncher` only on a scan without error for which
`shouldExit`, called as on line 166, returned true. -/
theorem readerManagerPass_kill {sha256 : String → String} {pl : Platform} {cfg : UserConfig}
    {clk : Clock} {ev : LoopEvent} {l : Locals} {st : State} {r : PassResult}
    (h : readerManagerPass sha256 pl cfg clk ev l st = some r)
    (hk : Effect.KillLauncher ∈ r.effects) :
    ∃ t l1, ev = LoopEvent.Scanned t ∧ t.Error.isSome = false
      ∧ removalCountdown sha256 cfg clk { l with newScanned := t.Token } = some l1
      ∧ shouldExit pl l1.candidateForRemove cfg (updateActiveCard l1.newScanned st).1
          l1.cardRemovalTime clk.t2 = true := by
  unfold readerManagerPass at h
  split at h
  · cases h; simp at hk
  · cases h; simp at hk
  · rename_i t
    split at h
    · cases h; exact absurd hk (kill_not_mem_playFail _ _)
    · rename_i herr
      split at h
      · cases h
      · rename_i l1 hl1
        cases h
        exact ⟨t, l1, rfl, by simpa using herr, hl1, processScanned_kill hk⟩

/-- What `shouldExit` returning true means, guard by guard. -/
theorem shouldExit_eq_true {pl : Platform} {candidateForRemove : Bool} {cfg : UserConfig}
    {st : State} {removalTime now : Time}
    (h : shouldExit pl candidateForRemove cfg st removalTime now = true) :
    pl.IsLauncherActive = true ∧ candidateForRemove = true
      ∧ st.GetLastScanned.FromApi = false ∧ st.IsLauncherDisabled = false
      ∧ removalTime.IsZero = false
      ∧ cfg.GetExitGameDelay ≤ int8Seconds (Since now removalTime)
      ∧ cfg.GetExitGame = true ∧ inExitGameBlocklist pl cfg = false := by
  unfold shouldExit at h
  by_cases h1 : pl.IsLauncherActive = true
  · by_cases h2 : (!candidateForRemove || st.GetLastScanned.FromApi
        || st.IsLauncherDisabled) = true
    · simp [h1, h2] at h
    · simp only [Bool.or_eq_true, Bool.not_eq_true', not_or, Bool.not_eq_false,
        Bool.not_eq_true] at h2
      obtain ⟨⟨hc, hf⟩, hd⟩ := h2
      by_cases h3 : removalTime.IsZero = true
      · simp [h1, hc, hf, hd, h3] at h
      · simp only [Bool.not_eq_true] at h3
        simp [h1, hc, hf, hd, h3] at h
        obtain ⟨⟨hdelay, hexit⟩, hblock⟩ := h
        exact ⟨h1, hc, hf, hd, h3, hdelay, hexit, hblock⟩
  · simp [h1] at h

/-- C3: `shouldExit` is sound.  If it returns true then the platform reports
a running title, `candidateForRemove` is true, the last scanned token is not
flagged `FromApi`, the launcher is not disabled, `removalTime` is not the
zero time and, where the clock has not gone back since `removalTime`, the
real elapsed time is at least the configured delay in seconds, exit on
removal is enabled and the active launcher is not in the blocklist.  And a
pass of the loop calls `KillLauncher` only while the platform reports a
running title. -/
theorem shouldExit_sound :
    (∀ (pl : Platform) (candidateForRemove : Bool) (cfg : UserConfig) (st : State)
        (removalTime now : Time),
        shouldExit pl candidateForRemove cfg st removalTime now = true →
          pl.IsLauncherActive = true ∧ candidateForRemove = true
            ∧ st.GetLastScanned.FromApi = false ∧ st.IsLauncherDisabled = false
            ∧ removalTime.IsZero = false
            ∧ (removalTime.ns ≤ now.ns →
                cfg.GetExitGameDelay * Second ≤ now.ns - removalTime.ns)
            ∧ cfg.GetExitGame = true ∧ inExitGameBlocklist pl cfg = false)
      ∧ (∀ (sha256 : String → String) (pl : Platform) (cfg : UserConfig) (clk : Clock)
          (ev : LoopEvent) (l : Locals) (st : State) (r : PassResult),
          readerManagerPass sha256 pl cfg clk ev l st = some r →
            Effect.KillLauncher ∈ r.effects → pl.IsLauncherActive = true) := by
  constructor
  · intro pl cand cfg st rt now h
    obtain ⟨h1, hc, hf, hd, h3, hdelay, hexit, hblock⟩ := shouldExit_eq_true h
    refine ⟨h1, hc, hf, hd, h3, ?_, hexit, hblock⟩
    intro hmono
    have hb := Since_bounds now rt hmono
    have hm := int8Seconds_mul_le (Since now rt) hb.1
    unfold Second at *
    omega
  · intro sha256 pl cfg clk ev l st r h hk
    obtain ⟨t, l1, _, _, _, hse⟩ := readerManagerPass_kill h hk
    exact (shouldExit_eq_true hse).1

/-- Witness of C3: a title runs, `cardA` was removed 4 seconds ago and the
configured delay is 3 seconds. -/
theorem shouldExit_sound_witness :
    shouldExit plGame true cfgExit3 stCardA ⟨1700000100000000000⟩ ⟨1700000104000000000⟩ = true
      ∧ cfgExit3.GetExitGameDelay * Second ≤ 1700000104000000000 - 1700000100000000000 :=
  ⟨by decide,
   (shouldExit_sound.1 plGame true cfgExit3 stCardA ⟨1700000100000000000⟩
      ⟨1700000104000000000⟩ (by decide)).2.2.2.2.2.1 (by decide)⟩

/-- C4, the code at the failing input: a title runs, `cardA` is the last
scanned card, the launcher is enabled, exit on removal is enabled with a
delay of 3 seconds and no blocklist, and the card was removed 128 seconds
ago, which is more than the delay; yet `shouldExit` returns false, because
the signed byte of 128 seconds is -128. -/
theorem shouldExit_false_after_128s :
    plGame.IsLauncherActive = true ∧ stCardA.GetLastScanned.FromApi = false
      ∧ stCardA.IsLauncherDisabled = false
      ∧ (⟨1700000100000000000⟩ : Time).IsZero = false
      ∧ cfgExit3.GetExitGame = true ∧ inExitGameBlocklist plGame cfgExit3 = false
      ∧ cfgExit3.GetExitGameDelay * Second ≤ 1700000228000000000 - 1700000100000000000
      ∧ int8Seconds (Since ⟨1700000228000000000⟩ ⟨1700000100000000000⟩) = -128
      ∧ shouldExit plGame true cfgExit3 stCardA ⟨1700000100000000000⟩
          ⟨1700000228000000000⟩ = false := by
  decide

/-- Below 128 seconds the comparison of `shouldExit` is the exact one: where
every other condition holds, the delay is a signed byte that is not negative
and the elapsed time is from the delay to less than 128 seconds,
`shouldExit` returns true. -/
theorem shouldExit_complete_below_128s (pl : Platform) (cfg : UserConfig) (st : State)
    (removalTime now : Time) (hpl : pl.IsLauncherActive = true)
    (hapi : st.GetLastScanned.FromApi = false) (hdis : st.IsLauncherDisabled = false)
    (hzero : removalTime.IsZero = false) (hexit : cfg.GetExitGame = true)
    (hblock : inExitGameBlocklist pl cfg = false) (hd0 : 0 ≤ cfg.GetExitGameDelay)
    (hdelay : cfg.GetExitGameDelay * Second ≤ now.ns - removalTime.ns)
    (h128 : now.ns - removalTime.ns < 128 * Second) :
    shouldExit pl true cfg st removalTime now = true := by
  have hmono : removalTime.ns ≤ now.ns := by unfold Second at hdelay; omega
  have hs : Since now removalTime = now.ns - removalTime.ns := by
    unfold Since Time.Sub maxDuration minDuration
    unfold Second at h128
    split
    · omega
    · split <;> omega
  have h8 := int8Seconds_eq_of_lt (Since now removalTime) (by rw [hs]; omega)
    (by rw [hs]; exact h128)
  have hge : cfg.GetExitGameDelay ≤ int8Seconds (Since now removalTime) := by
    rw [h8, hs]
    unfold Second at *
    omega
  simp [shouldExit, hpl, hapi, hdis, hzero, hexit, hblock, hge]

/-! ## Properties of one pass and of the loop -/

theorem SetActiveCard_flags (s : State) (card : Token) :
    (s.SetActiveCard card).1.disableLauncher = s.disableLauncher
      ∧ (s.SetActiveCard card).1.stopService = s.stopService := by
  unfold State.SetActiveCard
  split
  · exact ⟨rfl, rfl⟩
  · dsimp only
    split <;> exact ⟨rfl, rfl⟩

theorem updateActiveCard_flags (o : Option Token) (st : State) :
    (updateActiveCard o st).1.disableLauncher = st.disableLauncher
      ∧ (updateActiveCard o st).1.stopService = st.stopService := by
  cases o with
  | none => exact ⟨rfl, rfl⟩
  | some tok => exact SetActiveCard_flags st tok

/-- Lines 158-227 change the `State` by `SetActiveCard` only. -/
theorem processScanned_st (sha256 : String → String) (pl : Platform) (cfg : UserConfig)
    (clk : Clock) (l1 : Locals) (st : State) :
    (processScanned sha256 pl cfg clk l1 st).st = (updateActiveCard l1.newScanned st).1 := by
  unfold processScanned
  dsimp only
  split
  · rfl
  · split
    · rfl
    · split <;> rfl

/-- A pass leaves the flags `disableLauncher` and `stopService` as they are. -/
theorem readerManagerPass_flags {sha256 : String → String} {pl : Platform} {cfg : UserConfig}
    {clk : Clock} {ev : LoopEvent} {l : Locals} {st : State} {r : PassResult}
    (h : readerManagerPass sha256 pl cfg clk ev l st = some r) :
    r.st.disableLauncher = st.disableLauncher ∧ r.st.stopService = st.stopService := by
  unfold readerManagerPass at h
  split at h
  · cases h; exact ⟨rfl, rfl⟩
  · cases h; exact ⟨rfl, rfl⟩
  · split at h
    · cases h; exact ⟨rfl, rfl⟩
    · split at h
      · cases h
      · cases h
        rw [processScanned_st]
        exact updateActiveCard_flags _ _

/-- The removal countdown from `candidateForRemove = false`: it starts when
exit on removal is enabled and no token was scanned. -/
theorem removalCountdown_of_not_candidate (sha256 : String → String) (cfg : UserConfig)
    (clk : Clock) (l : Locals) (hc : l.candidateForRemove = false) :
    removalCountdown sha256 cfg clk l
      = some (if cfg.GetExitGame = true ∧ l.newScanned = none then
                { l with cardRemovalTime := clk.t1, candidateForRemove := true }
              else l) := by
  unfold removalCountdown
  by_cases he : cfg.GetExitGame = true
  · by_cases hn : l.newScanned = none
    · simp [he, hn, hc]
    · simp [he, hn, hc]
  · simp [he]

/-- The removal countdown when a token was scanned: it is cancelled when
exit on removal is enabled, a removal is pending and the token is the loaded
software. -/
theorem removalCountdown_of_token (sha256 : String → String) (cfg : UserConfig)
    (clk : Clock) (l : Locals) (tok : Token) (hn : l.newScanned = some tok) :
    removalCountdown sha256 cfg clk l
      = some (if cfg.GetExitGame = true ∧ l.candidateForRemove = true
                  ∧ tokenHash sha256 tok = l.loadedSoftware then
                { l with cardRemovalTime := Time.zero, candidateForRemove := false }
              else l) := by
  unfold removalCountdown
  by_cases he : cfg.GetExitGame = true
  · by_cases hc : l.candidateForRemove = true
    · by_cases hh : tokenHash sha256 tok = l.loadedSoftware
      · simp [he, hn, hc, hh]
      · simp [he, hn, hc, hh]
    · simp [he, hn, hc]
  · simp [he]

/-- With the launcher enabled, lines 158-227 end with no removal pending. -/
theorem processScanned_candidate (sha256 : String → String) (pl : Platform)
    (cfg : UserConfig) (clk : Clock) (l1 : Locals) (st : State)
    (hd : st.IsLauncherDisabled = false) :
    (processScanned sha256 pl cfg clk l1 st).locals.candidateForRemove = false := by
  have hd1 : (updateActiveCard l1.newScanned st).1.IsLauncherDisabled = false := by
    unfold State.IsLauncherDisabled at *
    rw [(updateActiveCard_flags _ _).1]; exact hd
  unfold processScanned
  dsimp only
  split
  · rfl
  · split
    · rfl
    · split
      · rename_i h; rw [hd1] at h; cases h
      · rfl

/-- A pass that starts with no removal pending, and takes less than the
configured delay between its two clock readings, is defined and does not
call `KillLauncher`; with the launcher enabled it ends with no removal
pending. -/
theorem readerManagerPass_of_not_candidate (sha256 : String → String) (pl : Platform)
    (cfg : UserConfig) (clk : Clock) (ev : LoopEvent) (l : Locals) (st : State)
    (hc : l.candidateForRemove = false) (hmono : clk.t1.ns ≤ clk.t2.ns)
    (hfast : clk.t2.ns - clk.t1.ns < cfg.GetExitGameDelay * Second) :
    ∃ r, readerManagerPass sha256 pl cfg clk ev l st = some r
      ∧ Effect.KillLauncher ∉ r.effects
      ∧ (st.IsLauncherDisabled = false → r.locals.candidateForRemove = false) := by
  have hdef : ∃ r, readerManagerPass sha256 pl cfg clk ev l st = some r := by
    unfold readerManagerPass
    split
    · exact ⟨_, rfl⟩
    · exact ⟨_, rfl⟩
    · split
      · exact ⟨_, rfl⟩
      · rename_i t _
        rw [removalCountdown_of_not_candidate sha256 cfg clk { l with newScanned := t.Token } hc]
        exact ⟨_, rfl⟩
  obtain ⟨r, hr⟩ := hdef
  refine ⟨r, hr, ?_, ?_⟩
  · intro hk
    obtain ⟨t, l1, _, _, hl1, hse⟩ := readerManagerPass_kill hr hk
    rw [removalCountdown_of_not_candidate sha256 cfg clk { l with newScanned := t.Token } hc]
      at hl1
    obtain ⟨_, hcand, _, _, _, hdelay, _, _⟩ := shouldExit_eq_true hse
    split at hl1
    · cases hl1
      dsimp only at hdelay
      have hb := Since_bounds clk.t2 clk.t1 hmono
      have hm := int8Seconds_mul_le _ hb.1
      unfold Second at *
      omega
    · cases hl1
      rw [hc] at hcand
      cases hcand
  · intro hd
    unfold readerManagerPass at hr
    split at hr
    · cases hr; exact hc
    · cases hr; exact hc
    · split at hr
      · cases hr; exact hc
      · split at hr
        · cases hr
        · cases hr
          exact processScanned_candidate _ _ _ _ _ _ hd

/-- With the launcher enabled, a loop that starts with no removal pending and
whose passes each take less than the configured delay between their two
clock readings runs every pass it is given, until the stop flag is set, and
never calls `KillLauncher`. -/
theorem readerManager_never_kills (sha256 : String → String) (cfg : UserConfig)
    (inputs : List PassInput) (l : Locals) (st : State)
    (hc : l.candidateForRemove = false) (hd : st.IsLauncherDisabled = false)
    (hclk : ∀ i ∈ inputs, i.clk.t1.ns ≤ i.clk.t2.ns
      ∧ i.clk.t2.ns - i.clk.t1.ns < cfg.GetExitGameDelay * Second) :
    ∃ rs, readerManager sha256 cfg inputs l st = some rs
      ∧ (st.ShouldStopService = false → rs.length = inputs.length)
      ∧ Effect.KillLauncher ∉ runEffects rs := by
  induction inputs generalizing l st with
  | nil => exact ⟨[], rfl, fun _ => rfl, by simp [runEffects]⟩
  | cons i rest ih =>
    unfold readerManager
    by_cases hs : st.ShouldStopService = true
    · rw [if_pos hs]
      exact ⟨[], rfl, fun h => absurd hs (by simp [h]), by simp [runEffects]⟩
    · rw [if_neg hs]
      have hi := hclk i (List.mem_cons_self _ _)
      obtain ⟨r, hr, hk, hcand⟩ :=
        readerManagerPass_of_not_candidate sha256 i.pl cfg i.clk i.ev l st hc hi.1 hi.2
      have hfl := readerManagerPass_flags hr
      have hd1 : r.st.IsLauncherDisabled = false := by
        unfold State.IsLauncherDisabled at *
        rw [hfl.1]; exact hd
      obtain ⟨rs, hrs, hlen, hks⟩ := ih r.locals r.st (hcand hd) hd1
        (fun j hj => hclk j (List.mem_cons_of_mem _ hj))
      refine ⟨(i, r) :: rs, ?_, ?_, ?_⟩
      · simp only [hr, hrs]
      · intro _
        have : r.st.ShouldStopService = false := by
          unfold State.ShouldStopService at *
          rw [hfl.2]; simpa using hs
        simp [hlen this]
      · simp only [runEffects, List.flatMap_cons, List.mem_append, not_or] at hks ⊢
        exact ⟨hk, hks⟩

/-- C5, the code at the failing input: exit on removal is enabled with a
delay of 3 seconds and no blocklist, the launcher is enabled and a title runs
throughout; `cardA` is scanned, reported as loaded software, and removed at
`t0`; the next pass, 3.5 seconds after `t0`, sees that there is still no card.
The four passes run, and the calls of the whole run are: `SetActiveCard`
takes and releases the lock, the success sound, `cardA` enqueued, a success
sound at the removal, and a success sound at the last pass.  `KillLauncher`
is not called. -/
theorem exitScenario_effects :
    (readerManager toyDigest cfgExit3
        (exitScenario (LoopEvent.Scanned ⟨none, none⟩) (clkAt 103 500))
        Locals.zero State.zero).map runEffects
      = some [Effect.OnState StEvent.Lock, Effect.OnState StEvent.Unlock,
          Effect.PlaySuccessSound, Effect.Enqueue cardA,
          Effect.PlaySuccessSound, Effect.PlaySuccessSound] := by
  decide

/-- The scenario of C5 whatever the digest function, the event of the last
pass and its clock are, as long as that pass takes less than the delay of 3
seconds between its two clock readings: the four passes run and
`KillLauncher` is not called. -/
theorem exitScenario_never_kills (sha256 : String → String) (ev : LoopEvent) (clk : Clock)
    (hmono : clk.t1.ns ≤ clk.t2.ns) (hfast : clk.t2.ns - clk.t1.ns < 3 * Second) :
    ∃ rs, readerManager sha256 cfgExit3 (exitScenario ev clk) Locals.zero State.zero = some rs
      ∧ rs.length = 4 ∧ Effect.KillLauncher ∉ runEffects rs := by
  obtain ⟨rs, hrs, hlen, hk⟩ := readerManager_never_kills sha256 cfgExit3
    (exitScenario ev clk) Locals.zero State.zero rfl rfl (by
      intro i hi
      simp only [exitScenario, List.mem_cons, List.mem_singleton, List.not_mem_nil,
        or_false] at hi
      rcases hi with rfl | rfl | rfl | rfl
      · decide
      · decide
      · decide
      · exact ⟨hmono, hfast⟩)
  exact ⟨rs, hrs, hlen rfl, hk⟩

/-- A pass that processes a scanned token is defined. -/
theorem readerManagerPass_token_defined (sha256 : String → String) (pl : Platform)
    (cfg : UserConfig) (clk : Clock) (l : Locals) (st : State) (t : Scan) (tok : Token)
    (ht : t.Token = some tok) :
    ∃ r, readerManagerPass sha256 pl cfg clk (LoopEvent.Scanned t) l st = some r := by
  unfold readerManagerPass
  dsimp only
  split
  · exact ⟨_, rfl⟩
  · rw [removalCountdown_of_token sha256 cfg clk { l with newScanned := t.Token } tok ht]
    exact ⟨_, rfl⟩

/-- A pass that processes a scanned token calls `KillLauncher` only when a
removal was pending at its start, the launcher is enabled and the token is
not the loaded software. -/
theorem readerManagerPass_token_kill {sha256 : String → String} {pl : Platform}
    {cfg : UserConfig} {clk : Clock} {l : Locals} {st : State} {t : Scan} {tok : Token}
    {r : PassResult} (ht : t.Token = some tok)
    (h : readerManagerPass sha256 pl cfg clk (LoopEvent.Scanned t) l st = some r)
    (hk : Effect.KillLauncher ∈ r.effects) :
    l.candidateForRemove = true ∧ st.IsLauncherDisabled = false
      ∧ tokenHash sha256 tok ≠ l.loadedSoftware := by
  obtain ⟨t1, l1, hev, _, hl1, hse⟩ := readerManagerPass_kill h hk
  cases hev
  rw [removalCountdown_of_token sha256 cfg clk { l with newScanned := t.Token } tok ht] at hl1
  obtain ⟨_, hcand, _, hdis, _, _, hexit, _⟩ := shouldExit_eq_true hse
  have hdis1 : st.IsLauncherDisabled = false := by
    unfold State.IsLauncherDisabled at *
    rw [(updateActiveCard_flags _ _).1] at hdis; exact hdis
  split at hl1
  · cases hl1; cases hcand
  · rename_i hnot
    cases hl1
    dsimp only at hcand hnot
    refine ⟨hcand, hdis1, ?_⟩
    intro hh
    exact hnot ⟨hexit, hcand, hh⟩

/-- C6: reinsertion never kills.  A pass that processes a scanned token whose
fingerprint is `loadedSoftware` is defined and does not call `KillLauncher`,
whatever the locals, the state, the configuration and the platform are.  And
where a card is removed while no removal is pending, and the removal pass
takes less than the configured delay between its two clock readings (so with
a delay of 5 seconds), the removal pass and the pass on which a token is
presented again, whenever that is (so 2 seconds later), both run without a
call of `KillLauncher`. -/
theorem reinsertion_never_kills :
    (∀ (sha256 : String → String) (pl : Platform) (cfg : UserConfig) (clk : Clock)
        (l : Locals) (st : State) (t : Scan) (tok : Token),
        t.Token = some tok → tokenHash sha256 tok = l.loadedSoftware →
          ∃ r, readerManagerPass sha256 pl cfg clk (LoopEvent.Scanned t) l st = some r
            ∧ Effect.KillLauncher ∉ r.effects)
      ∧ (∀ (sha256 : String → String) (pl1 pl2 : Platform) (cfg : UserConfig)
          (clk1 clk2 : Clock) (l : Locals) (st : State) (tok : Token),
          l.candidateForRemove = false → st.ShouldStopService = false →
          clk1.t1.ns ≤ clk1.t2.ns →
          clk1.t2.ns - clk1.t1.ns < cfg.GetExitGameDelay * Second →
            ∃ rs, readerManager sha256 cfg
                [⟨pl1, clk1, LoopEvent.Scanned ⟨none, none⟩⟩,
                 ⟨pl2, clk2, LoopEvent.Scanned ⟨some tok, none⟩⟩] l st = some rs
              ∧ rs.length = 2 ∧ Effect.KillLauncher ∉ runEffects rs) := by
  constructor
  · intro sha256 pl cfg clk l st t tok ht hh
    obtain ⟨r, hr⟩ := readerManagerPass_token_defined sha256 pl cfg clk l st t tok ht
    exact ⟨r, hr, fun hk => (readerManagerPass_token_kill ht hr hk).2.2 hh⟩
  · intro sha256 pl1 pl2 cfg clk1 clk2 l st tok hc hs hmono hfast
    obtain ⟨r1, hr1, hk1, hcand⟩ := readerManagerPass_of_not_candidate sha256 pl1 cfg clk1
      (LoopEvent.Scanned ⟨none, none⟩) l st hc hmono hfast
    obtain ⟨r2, hr2⟩ := readerManagerPass_token_defined sha256 pl2 cfg clk2 r1.locals r1.st
      ⟨some tok, none⟩ tok rfl
    have hfl := readerManagerPass_flags hr1
    have hs1 : r1.st.ShouldStopService = false := by
      unfold State.ShouldStopService at *
      rw [hfl.2]; exact hs
    refine ⟨[(⟨pl1, clk1, LoopEvent.Scanned ⟨none, none⟩⟩, r1),
      (⟨pl2, clk2, LoopEvent.Scanned ⟨some tok, none⟩⟩, r2)], ?_, rfl, ?_⟩
    · simp [readerManager, hs, hs1, hr1, hr2]
    · simp only [runEffects, List.flatMap_cons, List.flatMap_nil, List.append_nil,
        List.mem_append, not_or]
      refine ⟨hk1, fun hk2 => ?_⟩
      obtain ⟨hc2, hd2, _⟩ := readerManagerPass_token_kill rfl hr2 hk2
      have hd : st.IsLauncherDisabled = false := by
        unfold State.IsLauncherDisabled at *
        rw [← hfl.1]; exact hd2
      rw [hcand hd] at hc2
      cases hc2

/-- Witness of C6: with a delay of 5 seconds, `cardA` is the loaded software
of the running title, it is removed at `t0` and presented again 2 seconds
later. -/
theorem reinsertion_never_kills_witness :
    (∃ r, readerManagerPass toyDigest plGame cfgExit5 (clkAt 102 0)
        (LoopEvent.Scanned ⟨some cardAagain, none⟩) localsLoadedA stCardA = some r
      ∧ Effect.KillLauncher ∉ r.effects)
    ∧ (∃ rs, readerManager toyDigest cfgExit5
          [⟨plGame, clkAt 100 0, LoopEvent.Scanned ⟨none, none⟩⟩,
           ⟨plGame, clkAt 102 0, LoopEvent.Scanned ⟨some cardAagain, none⟩⟩]
          localsLoadedA stCardA = some rs
        ∧ rs.length = 2 ∧ Effect.KillLauncher ∉ runEffects rs) :=
  ⟨reinsertion_never_kills.1 toyDigest plGame cfgExit5 (clkAt 102 0) localsLoadedA stCardA
      ⟨some cardAagain, none⟩ cardAagain rfl (by decide),
   reinsertion_never_kills.2 toyDigest plGame plGame cfgExit5 (clkAt 100 0) (clkAt 102 0)
      localsLoadedA stCardA cardAagain rfl rfl (by decide) (by decide)⟩

theorem enqueue_not_mem_onState (x : Token) (xs : List StEvent) :
    Effect.Enqueue x ∉ xs.map Effect.OnState := by
  simp

theorem success_not_mem_onState (xs : List StEvent) :
    Effect.PlaySuccessSound ∉ xs.map Effect.OnState := by
  simp

/-- C7, refuted as stated: `cardA` is the loaded software, the user is back
at the menu (the launcher name `SNES` is remembered from the pass before) and
presents `cardA` again.  The fingerprint of the token is `loadedSoftware` as
it stands at the start of the pass, and the pass enqueues the token. -/
theorem represent_loaded_card_counterexample :
    tokenHash toyDigest cardAagain = localsLoadedA.loadedSoftware
      ∧ (readerManagerPass toyDigest plMenu cfgExit3 (clkAt 200 0)
            (LoopEvent.Scanned ⟨some cardAagain, none⟩) localsLoadedA stCardA).map
          (fun r => r.effects)
        = some [Effect.OnState StEvent.Lock, Effect.OnState StEvent.Unlock,
            Effect.PlaySuccessSound, Effect.Enqueue cardAagain] := by
  decide

/-- The removal countdown changes `candidateForRemove` and `cardRemovalTime`
only. -/
theorem removalCountdown_frame {sha256 : String → String} {cfg : UserConfig} {clk : Clock}
    {l l1 : Locals} (h : removalCountdown sha256 cfg clk l = some l1) :
    l1.loadedSoftware = l.loadedSoftware ∧ l1.newScanned = l.newScanned
      ∧ l1.lastLauncherName = l.lastLauncherName ∧ l1.lastError = l.lastError := by
  unfold removalCountdown at h
  split at h
  · split at h
    · cases h; exact ⟨rfl, rfl, rfl, rfl⟩
    · split at h
      · split at h
        · cases h
        · split at h <;> (cases h; exact ⟨rfl, rfl, rfl, rfl⟩)
      · cases h; exact ⟨rfl, rfl, rfl, rfl⟩
  · cases h; exact ⟨rfl, rfl, rfl, rfl⟩

/-- The menu reset takes place exactly when the platform reports its menu and
a launcher name is remembered. -/
theorem menuReset_eq (pl : Platform) (l : Locals) :
    (pl.IsLauncherActive = false ∧ l.lastLauncherName ≠ "" ∧
        menuReset pl l = { l with candidateForRemove := false, cardRemovalTime := Time.zero,
                                  loadedSoftware := "" })
      ∨ ((pl.IsLauncherActive = true ∨ l.lastLauncherName = "") ∧ menuReset pl l = l) := by
  unfold menuReset
  by_cases hpl : pl.IsLauncherActive = true
  · right; simp [hpl]
  · by_cases hn : l.lastLauncherName = ""
    · right; simp [hn]
    · left; simp [hpl, hn]

/-- Lines 158-227 on a scanned token that is the loaded software: no removal
is pending at the end. -/
theorem processScanned_loaded_candidate (sha256 : String → String) (pl : Platform)
    (cfg : UserConfig) (clk : Clock) (l1 : Locals) (st : State) (tok : Token)
    (hn : l1.newScanned = some tok) (hh : tokenHash sha256 tok = l1.loadedSoftware) :
    (processScanned sha256 pl cfg clk l1 st).locals.candidateForRemove = false := by
  unfold processScanned
  dsimp only
  split
  · rfl
  · split
    · rfl
    · rename_i hnl
      split
      · rcases menuReset_eq pl l1 with ⟨_, _, hm⟩ | ⟨_, hm⟩
        · rw [hm]
        · exfalso
          apply hnl
          rw [hm]
          simp [isLoadedSoftware, hn, hh]
      · rfl

/-- Lines 158-227 on a scanned token that is the loaded software, with no
menu reset: nothing is enqueued. -/
theorem processScanned_loaded_no_enqueue (sha256 : String → String) (pl : Platform)
    (cfg : UserConfig) (clk : Clock) (l1 : Locals) (st : State) (tok : Token)
    (hn : l1.newScanned = some tok) (hh : tokenHash sha256 tok = l1.loadedSoftware)
    (hpl : pl.IsLauncherActive = true ∨ l1.lastLauncherName = "") (x : Token) :
    Effect.Enqueue x ∉ (processScanned sha256 pl cfg clk l1 st).effects := by
  have hm : menuReset pl l1 = l1 := by
    rcases menuReset_eq pl l1 with ⟨h1, h2, _⟩ | ⟨_, hm⟩
    · rcases hpl with hpl | hpl
      · rw [h1] at hpl; cases hpl
      · exact absurd hpl h2
    · exact hm
  unfold processScanned
  dsimp only
  split
  · simp
  · split
    · exact enqueue_not_mem_onState _ _
    · rename_i hnl
      exfalso
      apply hnl
      rw [hm]
      simp [isLoadedSoftware, hn, hh]

/-- C7, amended: a pass that processes a scanned token whose fingerprint is
the `loadedSoftware` held at the start of the pass ends with
`candidateForRemove = false`; and unless the platform reports its menu while
a launcher name is remembered (the case in which the pass first clears
`loadedSoftware`), it enqueues nothing. -/
theorem represent_loaded_card (sha256 : String → String) (pl : Platform) (cfg : UserConfig)
    (clk : Clock) (l : Locals) (st : State) (tok : Token)
    (hh : tokenHash sha256 tok = l.loadedSoftware) :
    ∃ r, readerManagerPass sha256 pl cfg clk (LoopEvent.Scanned ⟨some tok, none⟩) l st = some r
      ∧ r.locals.candidateForRemove = false
      ∧ (pl.IsLauncherActive = true ∨ l.lastLauncherName = "" →
          ∀ x, Effect.Enqueue x ∉ r.effects) := by
  obtain ⟨l1, hl1⟩ : ∃ l1, removalCountdown sha256 cfg clk { l with newScanned := some tok }
      = some l1 :=
    ⟨_, removalCountdown_of_token sha256 cfg clk { l with newScanned := some tok } tok rfl⟩
  obtain ⟨hls, hns, hln, _⟩ := removalCountdown_frame hl1
  dsimp only at hls hns hln
  have hr : readerManagerPass sha256 pl cfg clk (LoopEvent.Scanned ⟨some tok, none⟩) l st
      = some (processScanned sha256 pl cfg clk l1 st) := by
    unfold readerManagerPass
    dsimp only
    rw [hl1]
    simp
  refine ⟨_, hr, ?_, ?_⟩
  · exact processScanned_loaded_candidate sha256 pl cfg clk l1 st tok hns (by rw [hls]; exact hh)
  · intro hpl x
    exact processScanned_loaded_no_enqueue sha256 pl cfg clk l1 st tok hns
      (by rw [hls]; exact hh) (by rw [hln]; exact hpl) x

/-- Witness of C7: `cardA` is the loaded software of the running title and is
presented again. -/
theorem represent_loaded_card_witness :
    tokenHash toyDigest cardAagain = localsLoadedA.loadedSoftware
      ∧ ∃ r, readerManagerPass toyDigest plGame cfgExit3 (clkAt 200 0)
            (LoopEvent.Scanned ⟨some cardAagain, none⟩) localsLoadedA stCardA = some r
          ∧ r.locals.candidateForRemove = false
          ∧ (plGame.IsLauncherActive = true ∨ localsLoadedA.lastLauncherName = "" →
              ∀ x, Effect.Enqueue x ∉ r.effects) :=
  ⟨by decide,
   represent_loaded_card toyDigest plGame cfgExit3 (clkAt 200 0) localsLoadedA stCardA
     cardAagain (by decide)⟩

/-- The counterexample of C7 for every digest function whose digest of the
token is not empty: back at the menu with a launcher name remembered and the
launcher enabled, the token whose fingerprint is `loadedSoftware` at the
start of the pass is enqueued. -/
theorem represent_in_menu_enqueues (sha256 : String → String) (pl : Platform)
    (cfg : UserConfig) (clk : Clock) (l : Locals) (st : State) (tok : Token)
    (hne : tokenHash sha256 tok ≠ "") (hpl : pl.IsLauncherActive = false)
    (hname : l.lastLauncherName ≠ "") (hd : st.IsLauncherDisabled = false) :
    ∃ r, readerManagerPass sha256 pl cfg clk (LoopEvent.Scanned ⟨some tok, none⟩) l st = some r
      ∧ Effect.Enqueue tok ∈ r.effects := by
  obtain ⟨l1, hl1⟩ : ∃ l1, removalCountdown sha256 cfg clk { l with newScanned := some tok }
      = some l1 :=
    ⟨_, removalCountdown_of_token sha256 cfg clk { l with newScanned := some tok } tok rfl⟩
  obtain ⟨_, hns, hln, _⟩ := removalCountdown_frame hl1
  dsimp only at hns hln
  have hr : readerManagerPass sha256 pl cfg clk (LoopEvent.Scanned ⟨some tok, none⟩) l st
      = some (processScanned sha256 pl cfg clk l1 st) := by
    unfold readerManagerPass
    dsimp only
    rw [hl1]
    simp
  refine ⟨_, hr, ?_⟩
  have hm : menuReset pl l1 =
      { l1 with candidateForRemove := false, cardRemovalTime := Time.zero,
                loadedSoftware := "" } := by
    rcases menuReset_eq pl l1 with ⟨_, _, hm⟩ | ⟨h, _⟩
    · exact hm
    · rcases h with h | h
      · rw [hpl] at h; cases h
      · exact absurd (hln ▸ h) hname
  have hse : shouldExit pl l1.candidateForRemove cfg (updateActiveCard l1.newScanned st).1
      l1.cardRemovalTime clk.t2 = false := by
    simp [shouldExit, hpl]
  have hd1 : (updateActiveCard l1.newScanned st).1.IsLauncherDisabled = false := by
    unfold State.IsLauncherDisabled at *
    rw [(updateActiveCard_flags _ _).1]; exact hd
  have hnl : isLoadedSoftware sha256
      { ({ l1 with candidateForRemove := false, cardRemovalTime := Time.zero,
                   loadedSoftware := "" } : Locals) with
        lastLauncherName := pl.GetActiveLauncher } = false := by
    simp only [isLoadedSoftware, hns]
    simpa using fun h => hne h.symm
  unfold processScanned
  dsimp only
  rw [hse, hm]
  dsimp only
  rw [hnl, hd1]
  simp [enqueueScanned, hns]

/-- The removal countdown is defined unless exit on removal is enabled, no
token was scanned and a removal is pending already. -/
theorem removalCountdown_defined (sha256 : String → String) (cfg : UserConfig) (clk : Clock)
    (l : Locals)
    (h : ¬ (cfg.GetExitGame = true ∧ l.newScanned = none ∧ l.candidateForRemove = true)) :
    ∃ l1, removalCountdown sha256 cfg clk l = some l1 := by
  cases hn : l.newScanned with
  | some tok => exact ⟨_, removalCountdown_of_token sha256 cfg clk l tok hn⟩
  | none =>
    by_cases hc : l.candidateForRemove = true
    · have he : ¬ cfg.GetExitGame = true := fun he => h ⟨he, hn, hc⟩
      exact ⟨l, by simp [removalCountdown, he]⟩
    · exact ⟨_, removalCountdown_of_not_candidate sha256 cfg clk l (by simpa using hc)⟩

/-- Lines 158-227 while the platform reports its menu and a launcher name is
remembered: the removal tracking and the loaded software are cleared. -/
theorem processScanned_menu (sha256 : String → String) (pl : Platform) (cfg : UserConfig)
    (clk : Clock) (l1 : Locals) (st : State) (hpl : pl.IsLauncherActive = false)
    (hname : l1.lastLauncherName ≠ "") :
    (processScanned sha256 pl cfg clk l1 st).locals.candidateForRemove = false
      ∧ (processScanned sha256 pl cfg clk l1 st).locals.cardRemovalTime = Time.zero
      ∧ (processScanned sha256 pl cfg clk l1 st).locals.loadedSoftware = "" := by
  have hm : menuReset pl l1 =
      { l1 with candidateForRemove := false, cardRemovalTime := Time.zero,
                loadedSoftware := "" } := by
    rcases menuReset_eq pl l1 with ⟨_, _, hm⟩ | ⟨h, _⟩
    · exact hm
    · rcases h with h | h
      · rw [hpl] at h; cases h
      · exact absurd h hname
  unfold processScanned
  dsimp only
  rw [hm]
  split
  · exact ⟨rfl, rfl, rfl⟩
  · split
    · exact ⟨rfl, rfl, rfl⟩
    · split <;> exact ⟨rfl, rfl, rfl⟩

/-- C8, refuted as stated: the platform reported `cardA` as loaded software
and no launcher name is remembered; the platform reports its menu and `cardB`
is scanned.  The pass ends with `loadedSoftware` still the fingerprint of
`cardA`, not empty. -/
theorem menu_clears_counterexample :
    plMenu.IsLauncherActive = false
      ∧ (readerManagerPass toyDigest plMenu cfgExit3 (clkAt 10 0)
            (LoopEvent.Scanned ⟨some cardB, none⟩) localsOnlyLoadedA State.zero).map
          (fun r => r.locals.loadedSoftware)
        = some (tokenHash toyDigest cardA)
      ∧ tokenHash toyDigest cardA ≠ "" := by
  decide

/-- The counterexample of C8 for every digest function and every prior
state: while the platform reports its menu and no launcher name is
remembered, a pass that processes a scan without error leaves
`loadedSoftware` as it was. -/
theorem menu_without_name_keeps_loadedSoftware (sha256 : String → String) (pl : Platform)
    (cfg : UserConfig) (clk : Clock) (l : Locals) (st : State) (t : Scan) (r : PassResult)
    (hpl : pl.IsLauncherActive = false) (hname : l.lastLauncherName = "")
    (herr : t.Error = none)
    (h : readerManagerPass sha256 pl cfg clk (LoopEvent.Scanned t) l st = some r) :
    r.locals.loadedSoftware = l.loadedSoftware := by
  unfold readerManagerPass at h
  dsimp only at h
  rw [herr] at h
  simp only [Option.isSome_none, Bool.false_eq_true, if_false] at h
  split at h
  · cases h
  · rename_i l1 hl1
    cases h
    obtain ⟨hls, _, hln, _⟩ := removalCountdown_frame hl1
    dsimp only at hls hln
    have hm : menuReset pl l1 = l1 := by
      rcases menuReset_eq pl l1 with ⟨_, h2, _⟩ | ⟨_, hm⟩
      · exact absurd (hln.trans hname) h2
      · exact hm
    have hse : shouldExit pl l1.candidateForRemove cfg (updateActiveCard l1.newScanned st).1
        l1.cardRemovalTime clk.t2 = false := by
      simp [shouldExit, hpl]
    unfold processScanned
    dsimp only
    rw [hse, hm]
    simp only [Bool.false_eq_true, if_false]
    split
    · exact hls
    · split <;> exact hls

/-- C8, amended: from every prior loop state in which a launcher name is
remembered (`lastLauncherName` is not empty), a pass that processes a scan
without error while the platform reports its menu ends with
`candidateForRemove = false`, `cardRemovalTime` zero and `loadedSoftware`
empty.  (Left out: the scan without a token that arrives, with exit on
removal enabled, while a removal is pending.) -/
theorem menu_clears (sha256 : String → String) (pl : Platform) (cfg : UserConfig)
    (clk : Clock) (l : Locals) (st : State) (t : Scan)
    (hpl : pl.IsLauncherActive = false) (hname : l.lastLauncherName ≠ "")
    (herr : t.Error = none)
    (hdef : ¬ (cfg.GetExitGame = true ∧ t.Token = none ∧ l.candidateForRemove = true)) :
    ∃ r, readerManagerPass sha256 pl cfg clk (LoopEvent.Scanned t) l st = some r
      ∧ r.locals.candidateForRemove = false ∧ r.locals.cardRemovalTime = Time.zero
      ∧ r.locals.loadedSoftware = "" := by
  obtain ⟨l1, hl1⟩ := removalCountdown_defined sha256 cfg clk { l with newScanned := t.Token }
    hdef
  obtain ⟨_, _, hln, _⟩ := removalCountdown_frame hl1
  dsimp only at hln
  have hr : readerManagerPass sha256 pl cfg clk (LoopEvent.Scanned t) l st
      = some (processScanned sha256 pl cfg clk l1 st) := by
    unfold readerManagerPass
    dsimp only
    rw [hl1, herr]
    simp
  exact ⟨_, hr, processScanned_menu sha256 pl cfg clk l1 st hpl (by rw [hln]; exact hname)⟩

/-- Witness of C8: back at the menu after `cardA` was played in `SNES`, with
a removal pending, `cardB` is scanned. -/
theorem menu_clears_witness :
    plMenu.IsLauncherActive = false ∧ localsRemovedA.lastLauncherName ≠ ""
      ∧ ∃ r, readerManagerPass toyDigest plMenu cfgExit3 (clkAt 200 0)
            (LoopEvent.Scanned ⟨some cardB, none⟩) localsRemovedA stCardA = some r
          ∧ r.locals.candidateForRemove = false ∧ r.locals.cardRemovalTime = Time.zero
          ∧ r.locals.loadedSoftware = "" :=
  ⟨rfl, by decide,
   menu_clears toyDigest plMenu cfgExit3 (clkAt 200 0) localsRemovedA stCardA
     ⟨some cardB, none⟩ rfl (by decide) rfl (by decide)⟩

theorem SetActiveCard_activeCard (s : State) (card : Token) :
    (s.SetActiveCard card).1.activeCard = card := by
  unfold State.SetActiveCard
  split
  · assumption
  · dsimp only
    split <;> rfl

/-- Lines 158-227 with the launcher disabled: the only calls are those of
`SetActiveCard`. -/
theorem processScanned_disabled (sha256 : String → String) (pl : Platform) (cfg : UserConfig)
    (clk : Clock) (l1 : Locals) (st : State) (hd : st.IsLauncherDisabled = true) :
    (processScanned sha256 pl cfg clk l1 st).effects
      = (updateActiveCard l1.newScanned st).2.map Effect.OnState := by
  have hd1 : (updateActiveCard l1.newScanned st).1.IsLauncherDisabled = true := by
    unfold State.IsLauncherDisabled at *
    rw [(updateActiveCard_flags _ _).1]; exact hd
  have hse : shouldExit pl l1.candidateForRemove cfg (updateActiveCard l1.newScanned st).1
      l1.cardRemovalTime clk.t2 = false := by
    cases h : shouldExit pl l1.candidateForRemove cfg (updateActiveCard l1.newScanned st).1
      l1.cardRemovalTime clk.t2 with
    | false => rfl
    | true =>
      have := (shouldExit_eq_true h).2.2.2.1
      rw [hd1] at this
      cases this
  unfold processScanned
  dsimp only
  rw [hse, hd1]
  simp only [Bool.false_eq_true, if_false, if_true]
  split <;> rfl

/-- C9: launcher disabled.  A pass that processes a scan carrying a token
(and no error) while the launcher is disabled is defined; it calls
`SetActiveCard` with the token, so the `State` after the pass is the one
`SetActiveCard` returns and its active card is the token, and it makes no
other call: nothing is enqueued, no success sound is played and
`KillLauncher` is not called. -/
theorem launcher_disabled_pass (sha256 : String → String) (pl : Platform) (cfg : UserConfig)
    (clk : Clock) (l : Locals) (st : State) (tok : Token)
    (hd : st.IsLauncherDisabled = true) :
    ∃ r, readerManagerPass sha256 pl cfg clk (LoopEvent.Scanned ⟨some tok, none⟩) l st = some r
      ∧ r.st = (st.SetActiveCard tok).1 ∧ r.st.GetActiveCard = tok
      ∧ r.effects = (st.SetActiveCard tok).2.map Effect.OnState
      ∧ (∀ x, Effect.Enqueue x ∉ r.effects) ∧ Effect.PlaySuccessSound ∉ r.effects
      ∧ Effect.KillLauncher ∉ r.effects := by
  obtain ⟨l1, hl1⟩ : ∃ l1, removalCountdown sha256 cfg clk { l with newScanned := some tok }
      = some l1 :=
    ⟨_, removalCountdown_of_token sha256 cfg clk { l with newScanned := some tok } tok rfl⟩
  obtain ⟨_, hns, _, _⟩ := removalCountdown_frame hl1
  dsimp only at hns
  have hr : readerManagerPass sha256 pl cfg clk (LoopEvent.Scanned ⟨some tok, none⟩) l st
      = some (processScanned sha256 pl cfg clk l1 st) := by
    unfold readerManagerPass
    dsimp only
    rw [hl1]
    simp
  have hfx := processScanned_disabled sha256 pl cfg clk l1 st hd
  have hst := processScanned_st sha256 pl cfg clk l1 st
  rw [hns] at hfx hst
  change _ = (st.SetActiveCard tok).2.map Effect.OnState at hfx
  change _ = (st.SetActiveCard tok).1 at hst
  refine ⟨_, hr, hst, ?_, hfx, ?_, ?_, ?_⟩
  · rw [hst]; exact SetActiveCard_activeCard st tok
  · intro x; rw [hfx]; exact enqueue_not_mem_onState _ _
  · rw [hfx]; exact success_not_mem_onState _
  · rw [hfx]; exact kill_not_mem_onState _

/-- Witness of C9: the launcher was disabled after `cardA` was scanned, a
hook is registered, and `cardB` is scanned while a title runs. -/
theorem launcher_disabled_pass_witness :
    stDisabled.IsLauncherDisabled = true
      ∧ ∃ r, readerManagerPass toyDigest plGame cfgExit3 (clkAt 60 0)
            (LoopEvent.Scanned ⟨some cardB, none⟩) localsLoadedA stDisabled = some r
          ∧ r.st = (stDisabled.SetActiveCard cardB).1 ∧ r.st.GetActiveCard = cardB
          ∧ r.effects = (stDisabled.SetActiveCard cardB).2.map Effect.OnState
          ∧ (∀ x, Effect.Enqueue x ∉ r.effects) ∧ Effect.PlaySuccessSound ∉ r.effects
          ∧ Effect.KillLauncher ∉ r.effects :=
  ⟨rfl,
   launcher_disabled_pass toyDigest plGame cfgExit3 (clkAt 60 0) localsLoadedA stDisabled
     cardB rfl⟩

/-! ## The failure sound -/

/-- A pass on a scan that carries an error: `playFail`, then the error time
is recorded. -/
theorem readerManagerPass_error (sha256 : String → String) (cfg : UserConfig)
    (i : PassInput) (l : Locals) (st : State) (hi : isScanError i = true) :
    readerManagerPass sha256 i.pl cfg i.clk i.ev l st
      = some ⟨{ l with lastError := i.clk.t2 }, st, playFail i.clk l.lastError⟩ := by
  unfold isScanError at hi
  unfold readerManagerPass
  split <;> simp_all

/-- The loop, one pass unfolded, on a scan that carries an error. -/
theorem readerManager_cons_error (sha256 : String → String) (cfg : UserConfig)
    (i : PassInput) (rest : List PassInput) (l : Locals) (st : State)
    (hi : isScanError i = true) (hs : st.ShouldStopService = false) :
    readerManager sha256 cfg (i :: rest) l st
      = (readerManager sha256 cfg rest { l with lastError := i.clk.t2 } st).map
          (fun rs => (i, ⟨{ l with lastError := i.clk.t2 }, st, playFail i.clk l.lastError⟩)
            :: rs) := by
  rw [readerManager]
  simp only [hs, Bool.false_eq_true, if_false, readerManagerPass_error sha256 cfg i l st hi]
  cases readerManager sha256 cfg rest { l with lastError := i.clk.t2 } st <;> rfl

theorem failSoundTimes_cons (i : PassInput) (r : PassResult)
    (rs : List (PassInput × PassResult)) :
    failSoundTimes ((i, r) :: rs)
      = if r.effects.contains Effect.PlayFailSound then i.clk.t1 :: failSoundTimes rs
        else failSoundTimes rs := by
  unfold failSoundTimes
  rw [List.filter_cons]
  split <;> simp

theorem playFail_contains (clk : Clock) (t : Time)
    (h : (playFail clk t).contains Effect.PlayFailSound = true) :
    t.ns + Second < clk.t1.ns := by
  unfold playFail at h
  split at h
  · rename_i hgt
    exact Since_gt_second _ _ hgt
  · simp at h

/-- Over a run of scan errors, every failure sound is played more than a
second after any instant `x` that is neither later than the recorded error
time at the start nor later than the error time any pass records. -/
theorem failSoundTimes_lower_bound (sha256 : String → String) (cfg : UserConfig)
    (inputs : List PassInput) :
    ∀ (l : Locals) (st : State) (rs : List (PassInput × PassResult)) (x : Int),
      (∀ i ∈ inputs, isScanError i = true) →
      readerManager sha256 cfg inputs l st = some rs →
      x ≤ l.lastError.ns → (∀ i ∈ inputs, x ≤ i.clk.t2.ns) →
      ∀ b ∈ failSoundTimes rs, x + Second < b.ns := by
  induction inputs with
  | nil =>
    intro l st rs x _ hrun _ _ b hb
    simp only [readerManager, Option.some.injEq] at hrun
    subst hrun
    simp [failSoundTimes] at hb
  | cons i rest ih =>
    intro l st rs x herr hrun hx hall b hb
    by_cases hs : st.ShouldStopService = true
    · rw [readerManager, if_pos hs] at hrun
      cases hrun
      simp [failSoundTimes] at hb
    · have hs0 : st.ShouldStopService = false := by simpa using hs
      rw [readerManager_cons_error sha256 cfg i rest l st
        (herr i (List.mem_cons_self _ _)) hs0] at hrun
      cases hrest : readerManager sha256 cfg rest { l with lastError := i.clk.t2 } st with
      | none => rw [hrest] at hrun; cases hrun
      | some rs1 =>
        rw [hrest] at hrun
        simp only [Option.map_some', Option.some.injEq] at hrun
        subst hrun
        rw [failSoundTimes_cons] at hb
        have htail : ∀ b ∈ failSoundTimes rs1, x + Second < b.ns :=
          ih { l with lastError := i.clk.t2 } st rs1 x
            (fun j hj => herr j (List.mem_cons_of_mem _ hj)) hrest
            (hall i (List.mem_cons_self _ _))
            (fun j hj => hall j (List.mem_cons_of_mem _ hj))
        split at hb
        · rename_i hplay
          rcases List.mem_cons.mp hb with rfl | hb1
          · have := playFail_contains _ _ hplay
            omega
          · exact htail b hb1
        · exact htail b hb

theorem mem_clockReadings_t2 {inputs : List PassInput} {j : PassInput} (hj : j ∈ inputs) :
    j.clk.t2.ns ∈ clockReadings inputs := by
  unfold clockReadings
  rw [List.mem_flatMap]
  exact ⟨j, hj, by simp⟩

/-- Over a run of scan errors with a clock that does not go back, any two
failure sounds are more than a second apart. -/
theorem failSoundTimes_pairwise (sha256 : String → String) (cfg : UserConfig)
    (inputs : List PassInput) :
    ∀ (l : Locals) (st : State),
      (∀ i ∈ inputs, isScanError i = true) →
      (clockReadings inputs).Pairwise (fun a b => a ≤ b) →
      ∃ rs, readerManager sha256 cfg inputs l st = some rs
        ∧ (failSoundTimes rs).Pairwise (fun a b => a.ns + Second < b.ns) := by
  induction inputs with
  | nil =>
    intro l st _ _
    exact ⟨[], rfl, by simp [failSoundTimes]⟩
  | cons i rest ih =>
    intro l st herr hclk
    by_cases hs : st.ShouldStopService = true
    · exact ⟨[], by rw [readerManager, if_pos hs], by simp [failSoundTimes]⟩
    · have hs0 : st.ShouldStopService = false := by simpa using hs
      have hclk1 : (i.clk.t1.ns :: i.clk.t2.ns :: clockReadings rest).Pairwise
          (fun a b => a ≤ b) := by
        simpa [clockReadings] using hclk
      rw [List.pairwise_cons, List.pairwise_cons] at hclk1
      obtain ⟨h1, h2, hrestclk⟩ := hclk1
      obtain ⟨rs1, hrs1, hpw⟩ := ih { l with lastError := i.clk.t2 } st
        (fun j hj => herr j (List.mem_cons_of_mem _ hj)) hrestclk
      refine ⟨_, by
        rw [readerManager_cons_error sha256 cfg i rest l st
          (herr i (List.mem_cons_self _ _)) hs0, hrs1]
        rfl, ?_⟩
      rw [failSoundTimes_cons]
      split
      · rw [List.pairwise_cons]
        refine ⟨?_, hpw⟩
        intro b hb
        exact failSoundTimes_lower_bound sha256 cfg rest { l with lastError := i.clk.t2 } st
          rs1 i.clk.t1.ns (fun j hj => herr j (List.mem_cons_of_mem _ hj)) hrs1
          (h1 _ (List.mem_cons_self _ _))
          (fun j hj => h1 _ (List.mem_cons_of_mem _ (mem_clockReadings_t2 hj))) b hb
      · exact hpw

/-- C10: the failure sound is throttled.  Over every sequence of scan errors
that the loop processes, with a clock that does not go back, any two calls of
`PlayFailSound` are more than one second of clock time apart.  And from the
locals as declared before the loop, with a clock that reads more than a
second after the zero time, two scan errors whose checks are at most one
second apart make exactly one call of `PlayFailSound`. -/
theorem failSound_throttled :
    (∀ (sha256 : String → String) (cfg : UserConfig) (inputs : List PassInput) (l : Locals)
        (st : State),
        (∀ i ∈ inputs, isScanError i = true) →
        (clockReadings inputs).Pairwise (fun a b => a ≤ b) →
          ∃ rs, readerManager sha256 cfg inputs l st = some rs
            ∧ (failSoundTimes rs).Pairwise (fun a b => a.ns + Second < b.ns))
      ∧ (∀ (sha256 : String → String) (cfg : UserConfig) (pl1 pl2 : Platform)
          (clk1 clk2 : Clock) (t1 t2 : Scan) (st : State),
          t1.Error.isSome = true → t2.Error.isSome = true →
          st.ShouldStopService = false →
          Second < clk1.t1.ns → clk1.t1.ns ≤ clk1.t2.ns →
          clk2.t1.ns - clk1.t1.ns ≤ Second →
            ∃ rs, readerManager sha256 cfg
                [⟨pl1, clk1, LoopEvent.Scanned t1⟩, ⟨pl2, clk2, LoopEvent.Scanned t2⟩]
                Locals.zero st = some rs
              ∧ rs.length = 2 ∧ (runEffects rs).count Effect.PlayFailSound = 1) := by
  refine ⟨fun sha256 cfg inputs l st => failSoundTimes_pairwise sha256 cfg inputs l st, ?_⟩
  intro sha256 cfg pl1 pl2 clk1 clk2 t1 t2 st he1 he2 hs hlate hmono hnear
  have hp1 : playFail clk1 Locals.zero.lastError = [Effect.PlayFailSound] := by
    unfold playFail Since Time.Sub maxDuration minDuration Locals.zero Time.zero Second at *
    dsimp only
    split
    · simp
    · split
      · omega
      · rw [if_pos (by omega)]
  have hp2 : playFail clk2 clk1.t2 = [] := by
    unfold playFail Since Time.Sub maxDuration minDuration Second at *
    split
    · exfalso; omega
    · split
      · simp
      · rw [if_neg (by omega)]
  refine ⟨[(⟨pl1, clk1, LoopEvent.Scanned t1⟩,
              ⟨{ Locals.zero with lastError := clk1.t2 }, st,
                playFail clk1 Locals.zero.lastError⟩),
            (⟨pl2, clk2, LoopEvent.Scanned t2⟩,
              ⟨{ Locals.zero with lastError := clk2.t2 }, st, playFail clk2 clk1.t2⟩)],
    ?_, rfl, ?_⟩
  · rw [readerManager_cons_error sha256 cfg ⟨pl1, clk1, LoopEvent.Scanned t1⟩ _ _ st
        (by simpa [isScanError] using he1) hs,
      readerManager_cons_error sha256 cfg ⟨pl2, clk2, LoopEvent.Scanned t2⟩ _ _ st
        (by simpa [isScanError] using he2) hs]
    rfl
  · simp only [runEffects, List.flatMap_cons, List.flatMap_nil, List.append_nil]
    rw [hp1, hp2]
    rfl

/-- Witness of C10: three scan errors at `t`, `t` + 0.5 s and `t` + 2 s; and
the first two of them from the locals as declared before the loop. -/
theorem failSound_throttled_witness :
    (∃ rs, readerManager toyDigest cfgExit3 errorRun localsLoadedA stCardA = some rs
        ∧ (failSoundTimes rs).Pairwise (fun a b => a.ns + Second < b.ns))
      ∧ (∃ rs, readerManager toyDigest cfgExit3
            [⟨plGame, clkAt 0 0, LoopEvent.Scanned ⟨none, some "read failed"⟩⟩,
             ⟨plGame, clkAt 0 500, LoopEvent.Scanned ⟨none, some "read failed"⟩⟩]
            Locals.zero stCardA = some rs
          ∧ rs.length = 2 ∧ (runEffects rs).count Effect.PlayFailSound = 1) :=
  ⟨failSound_throttled.1 toyDigest cfgExit3 errorRun localsLoadedA stCardA
      (by decide) (by decide),
   failSound_throttled.2 toyDigest cfgExit3 plGame plGame (clkAt 0 0) (clkAt 0 500)
      ⟨none, some "read failed"⟩ ⟨none, some "read failed"⟩ stCardA rfl rfl rfl
      (by decide) (by decide) (by decide)⟩

/-- The run of three scan errors, evaluated: the failure sound is played at
the first error and, two seconds later, at the third. -/
theorem errorRun_failSoundTimes :
    (readerManager toyDigest cfgExit3 errorRun Locals.zero stCardA).map failSoundTimes
      = some [atSeconds 0 0, atSeconds 2 0] := by
  decide

/-! ## The update hook, the stop flag and the last scanned card -/

/-- C11: the update hook protocol.  For every `State` and every mutating
setter (`SetActiveCard` with a token that is not the active card,
`StopService`, `DisableLauncher`, `EnableLauncher`, `SetDB`,
`SetReaderConnected`, `SetReaderDisconnected`, `SetWriteRequest`): with a hook
registered the trace holds exactly one call of that hook, and the `State` it
is passed is the `State` as the setter leaves it, the mutation done; with no
hook registered the trace holds no call of a hook; and the trace keeps the
lock discipline, the hook being called only once the lock has been taken and
released again, never while it is held.  The setter does not change which
hook is registered. -/
theorem updateHook_protocol (s : State) (op : StateOp) (hop : op.isMutatingSetter s = true) :
    hookCalls (s.call op).2
        = (match s.updateHook with
           | some h => [(h, (s.call op).1)]
           | none => [])
      ∧ hooksAfterRelease LockPhase.idle (s.call op).2 = true
      ∧ (s.call op).1.updateHook = s.updateHook := by
  cases op with
  | SetUpdateHook hook => simp [StateOp.isMutatingSetter] at hop
  | SetActiveCard card =>
    have hne : s.activeCard ≠ card := by simpa [StateOp.isMutatingSetter] using hop
    simp only [State.call, State.SetActiveCard, if_neg hne]
    by_cases hu : card.UID = "" <;> cases hh : s.updateHook <;>
      simp [hu, State.callHook, hh, hookCalls, hooksAfterRelease]
  | StopService =>
    cases hh : s.updateHook <;>
      simp [State.call, State.StopService, State.callHook, hh, hookCalls, hooksAfterRelease]
  | DisableLauncher =>
    cases hh : s.updateHook <;>
      simp [State.call, State.DisableLauncher, State.callHook, hh, hookCalls,
        hooksAfterRelease]
  | EnableLauncher =>
    cases hh : s.updateHook <;>
      simp [State.call, State.EnableLauncher, State.callHook, hh, hookCalls,
        hooksAfterRelease]
  | SetDB now uidMap textMap =>
    cases hh : s.updateHook <;>
      simp [State.call, State.SetDB, State.callHook, hh, hookCalls, hooksAfterRelease]
  | SetReaderConnected rt =>
    cases hh : s.updateHook <;>
      simp [State.call, State.SetReaderConnected, State.callHook, hh, hookCalls,
        hooksAfterRelease]
  | SetReaderDisconnected =>
    cases hh : s.updateHook <;>
      simp [State.call, State.SetReaderDisconnected, State.callHook, hh, hookCalls,
        hooksAfterRelease]
  | SetWriteRequest req =>
    cases hh : s.updateHook <;>
      simp [State.call, State.SetWriteRequest, State.callHook, hh, hookCalls,
        hooksAfterRelease]

/-- Witness of C11: with the hook 7 registered and `cardA` active, `cardB` is
set as active card. -/
theorem updateHook_protocol_witness :
    (StateOp.SetActiveCard cardB).isMutatingSetter stDisabled = true
      ∧ hookCalls (stDisabled.call (StateOp.SetActiveCard cardB)).2
          = [(7, (stDisabled.call (StateOp.SetActiveCard cardB)).1)]
      ∧ hooksAfterRelease LockPhase.idle (stDisabled.call (StateOp.SetActiveCard cardB)).2
          = true :=
  ⟨by decide,
   (updateHook_protocol stDisabled (StateOp.SetActiveCard cardB) (by decide)).1,
   (updateHook_protocol stDisabled (StateOp.SetActiveCard cardB) (by decide)).2.1⟩

/-- No setter clears the stop flag. -/
theorem State.call_stopService (s : State) (op : StateOp) (h : s.stopService = true) :
    (s.call op).1.stopService = true := by
  cases op with
  | SetActiveCard card => rw [State.call, (SetActiveCard_flags s card).2]; exact h
  | StopService => rfl
  | _ => exact h

theorem State.callAll_stopService (ops : List StateOp) :
    ∀ s : State, s.stopService = true → (s.callAll ops).stopService = true := by
  induction ops with
  | nil => intro s h; exact h
  | cons op ops ih => intro s h; exact ih _ (State.call_stopService s op h)

/-- C12: the stop flag is monotonic.  Once `StopService` has been called,
`ShouldStopService` returns true after every sequence of calls of setters
that follows; and `StopService` changes no field but `stopService`. -/
theorem stopService_monotonic :
    (∀ (s : State) (ops : List StateOp),
        (s.StopService.1.callAll ops).ShouldStopService = true)
      ∧ (∀ s : State, s.StopService.1 = { s with stopService := true }) :=
  ⟨fun s ops => State.callAll_stopService ops s.StopService.1 rfl, fun _ => rfl⟩

/-- C19: in every `State` reachable from the zero value by the exported
setters, an active card with a non-empty UID is the last scanned card:
`GetLastScanned` and `GetActiveCard` return the same token. -/
theorem reachable_lastScanned_eq_activeCard (s : State) (hs : s.Reachable)
    (hu : s.GetActiveCard.UID ≠ "") : s.GetLastScanned = s.GetActiveCard :=
  hs.lastScanned_eq hu

/-- Witness of C19: the state reached from the zero state by scanning
`cardA`. -/
theorem reachable_lastScanned_eq_activeCard_witness :
    stCardA.Reachable ∧ stCardA.GetActiveCard.UID ≠ ""
      ∧ stCardA.GetLastScanned = stCardA.GetActiveCard :=
  ⟨State.Reachable.setActiveCard cardA State.Reachable.zero, by decide,
   reachable_lastScanned_eq_activeCard stCardA
     (State.Reachable.setActiveCard cardA State.Reachable.zero) (by decide)⟩

/-! ## Connecting the reader -/

/-- C13: the contract of `connectReaders`.  (1) With a reader in the `State`
that reports `Connected`, it returns nil, makes no call and leaves the
`State` as it is.  Otherwise, with no reader in the `State` or one that does
not report `Connected`: (2) with no connection string and a `Detect` that
returns the empty string it returns the error "no reader detected", does not
call `Open` and leaves the `State` as it is; (3) when `Open` of the device
(the connection string, or else what `Detect` returned) returns an error it
returns exactly that error and leaves the `State` as it is; (4) when that
`Open` succeeds it returns nil and the `State` holds the new reader, nothing
else changed.  (5) With a connection string, `Detect` is never called. -/
theorem connectReaders_contract :
    (∀ (newReader : Reader) (connectionString : String) (st : ReaderState) (reader : Reader),
        st.GetReader = some reader → reader.Connected = true →
          (connectReaders newReader connectionString st).err = none
            ∧ (connectReaders newReader connectionString st).calls = []
            ∧ (connectReaders newReader connectionString st).st = st)
      ∧ (∀ (newReader : Reader) (st : ReaderState),
          (st.GetReader = none ∨ ∃ reader, st.GetReader = some reader ∧ reader.Connected = false) →
          newReader.Detect = "" →
            (connectReaders newReader "" st).err = some "no reader detected"
              ∧ (∀ device, ReaderCall.Open device ∉ (connectReaders newReader "" st).calls)
              ∧ (connectReaders newReader "" st).st = st)
      ∧ (∀ (newReader : Reader) (connectionString : String) (st : ReaderState)
          (device err : String),
          (st.GetReader = none ∨ ∃ reader, st.GetReader = some reader ∧ reader.Connected = false) →
          device = (if connectionString = "" then newReader.Detect else connectionString) →
          device ≠ "" → newReader.Open device = some err →
            (connectReaders newReader connectionString st).err = some err
              ∧ (connectReaders newReader connectionString st).st = st)
      ∧ (∀ (newReader : Reader) (connectionString : String) (st : ReaderState)
          (device : String),
          (st.GetReader = none ∨ ∃ reader, st.GetReader = some reader ∧ reader.Connected = false) →
          device = (if connectionString = "" then newReader.Detect else connectionString) →
          device ≠ "" → newReader.Open device = none →
            (connectReaders newReader connectionString st).err = none
              ∧ (connectReaders newReader connectionString st).st.GetReader = some newReader
              ∧ (connectReaders newReader connectionString st).st.st = st.st)
      ∧ (∀ (newReader : Reader) (connectionString : String) (st : ReaderState),
          connectionString ≠ "" →
            ReaderCall.Detect ∉ (connectReaders newReader connectionString st).calls) := by
  have hnc : ∀ st : ReaderState,
      (st.GetReader = none ∨ ∃ reader, st.GetReader = some reader ∧ reader.Connected = false) →
      (match st.GetReader with
        | none => true
        | some reader => !reader.Connected) = true := by
    intro st h
    rcases h with h | ⟨reader, h, hc⟩
    · rw [h]
    · rw [h]; simp [hc]
  refine ⟨?_, ?_, ?_, ?_, ?_⟩
  · intro newReader cs st reader hr hc
    simp [connectReaders, hr, hc]
  · intro newReader st hn hd
    simp [connectReaders, hnc st hn, hd]
  · intro newReader cs st device err hn hdev hne hopen
    by_cases hcs : cs = ""
    · subst hcs
      simp only [if_true] at hdev
      subst hdev
      simp [connectReaders, hnc st hn, hne, openReader, hopen]
    · simp only [hcs, if_false] at hdev
      subst hdev
      simp [connectReaders, hnc st hn, hcs, openReader, hopen]
  · intro newReader cs st device hn hdev hne hopen
    have h := hnc st hn
    simp only [ReaderState.GetReader] at h
    by_cases hcs : cs = ""
    · subst hcs
      simp only [if_true] at hdev
      subst hdev
      simp [connectReaders, h, hne, openReader, hopen, ReaderState.SetReader,
        ReaderState.GetReader]
    · simp only [hcs, if_false] at hdev
      subst hdev
      simp [connectReaders, h, hcs, openReader, hopen, ReaderState.SetReader,
        ReaderState.GetReader]
  · intro newReader cs st hcs
    unfold connectReaders
    dsimp only
    split
    · simp only [beq_iff_eq, hcs, if_false]
      unfold openReader
      split <;> simp
    · simp

/-- Witness of C13: a connected reader is kept; with no reader, no connection
string and nothing detected the error is "no reader detected"; a device that
fails to open gives the error of `Open`; a detected device that opens is
stored. -/
theorem connectReaders_contract_witness :
    ((connectReaders readerFound "" ⟨State.zero, some readerUp⟩).err = none
        ∧ (connectReaders readerFound "" ⟨State.zero, some readerUp⟩).calls = [])
      ∧ (connectReaders readerNone "" ⟨State.zero, none⟩).err = some "no reader detected"
      ∧ (connectReaders readerNone "acr122_usb" ⟨State.zero, some readerDown⟩).err
          = some "unable to open device"
      ∧ (connectReaders readerFound "" ⟨State.zero, some readerDown⟩).st.GetReader
          = some readerFound
      ∧ ReaderCall.Detect ∉ (connectReaders readerNone "acr122_usb" ⟨State.zero, none⟩).calls :=
  ⟨⟨(connectReaders_contract.1 readerFound "" ⟨State.zero, some readerUp⟩ readerUp rfl rfl).1,
    (connectReaders_contract.1 readerFound "" ⟨State.zero, some readerUp⟩ readerUp rfl rfl).2.1⟩,
   (connectReaders_contract.2.1 readerNone ⟨State.zero, none⟩ (Or.inl rfl) rfl).1,
   (connectReaders_contract.2.2.1 readerNone "acr122_usb" ⟨State.zero, some readerDown⟩
      "acr122_usb" "unable to open device" (Or.inr ⟨readerDown, rfl, rfl⟩) (by decide)
      (by decide) rfl).1,
   (connectReaders_contract.2.2.2.1 readerFound "" ⟨State.zero, some readerDown⟩
      "pn532_uart:/dev/ttyUSB0" (Or.inr ⟨readerDown, rfl, rfl⟩) (by decide) (by decide)
      rfl).2.1,
   connectReaders_contract.2.2.2.2 readerNone "acr122_usb" ⟨State.zero, none⟩ (by decide)⟩

/-! ## The fingerprint -/

/-- Tokens with the same UID and the same text have the same fingerprint,
whatever the digest function is. -/
theorem tokenHash_eq_of_sameUidText (sha256 : String → String) (t1 t2 : Token)
    (h : sameUidText t1 t2 = true) : tokenHash sha256 t1 = tokenHash sha256 t2 := by
  simp only [sameUidText, Bool.and_eq_true, beq_iff_eq] at h
  unfold tokenHash
  rw [h.1, h.2]

/-- With an injective digest function, two tokens have the same fingerprint
exactly when the UID followed by the text is the same string for both. -/
theorem tokenHash_eq_iff_append (sha256 : String → String)
    (hinj : Function.Injective sha256) (t1 t2 : Token) :
    tokenHash sha256 t1 = tokenHash sha256 t2 ↔ t1.UID ++ t1.Text = t2.UID ++ t2.Text := by
  unfold tokenHash
  exact ⟨fun h => hinj h, fun h => by rw [h]⟩

/-- C14, the code at the failing input: `cardShortUid` and `cardLongUid`
differ in UID and in text, so the comparison over (uid, text) tells them
apart, yet the UID followed by the text is the same string for both and they
have the same fingerprint, whatever the digest function is (an injective one
too). -/
theorem tokenHash_collision :
    cardShortUid.UID ≠ cardLongUid.UID ∧ cardShortUid.Text ≠ cardLongUid.Text
      ∧ sameUidText cardShortUid cardLongUid = false
      ∧ ∀ sha256 : String → String,
          tokenHash sha256 cardShortUid = tokenHash sha256 cardLongUid :=
  ⟨by decide, by decide, by decide, fun _ => rfl⟩

/-- The collision of C14 in the loop: `cardShortUid` is the loaded software
of the running title; `cardLongUid`, another card, is scanned and the pass
skips it as the loaded software: it makes no call besides those of
`SetActiveCard`, so nothing is enqueued. -/
theorem tokenHash_collision_skips_launch :
    (readerManagerPass toyDigest plGame cfgExit3 (clkAt 300 0)
        (LoopEvent.Scanned ⟨some cardLongUid, none⟩) localsLoadedShortUid stCardA).map
      (fun r => r.effects)
      = some [Effect.OnState StEvent.Lock, Effect.OnState StEvent.Unlock] := by
  decide

/-! ## The removal pass, the launch path and the software notification -/

/-- With the launcher enabled, lines 158-227 on a scan without token end with
no removal pending and no removal time. -/
theorem processScanned_removal_reset (sha256 : String → String) (pl : Platform)
    (cfg : UserConfig) (clk : Clock) (l1 : Locals) (st : State)
    (hn : l1.newScanned = none) (hd : st.IsLauncherDisabled = false) :
    (processScanned sha256 pl cfg clk l1 st).locals.candidateForRemove = false
      ∧ (processScanned sha256 pl cfg clk l1 st).locals.cardRemovalTime = Time.zero := by
  have hnm : (menuReset pl l1).newScanned = none := by
    rcases menuReset_eq pl l1 with ⟨_, _, hm⟩ | ⟨_, hm⟩ <;> rw [hm] <;> exact hn
  have hst : (updateActiveCard l1.newScanned st).1 = st := by rw [hn]; rfl
  unfold processScanned
  dsimp only
  rw [hst]
  split
  · exact ⟨rfl, rfl⟩
  · split
    · rename_i h
      simp [isLoadedSoftware, hnm] at h
    · split
      · rename_i h; rw [hd] at h; cases h
      · exact ⟨rfl, rfl⟩

/-- The pass of C15 for every input: with the launcher enabled, a pass that
processes a scan without token and without error from a state with no
removal pending is defined and ends with `candidateForRemove = false` and
`cardRemovalTime` zero, whatever the configuration, the platform and the
clock are. -/
theorem removal_pass_forgets_countdown (sha256 : String → String) (pl : Platform)
    (cfg : UserConfig) (clk : Clock) (l : Locals) (st : State)
    (hc : l.candidateForRemove = false) (hd : st.IsLauncherDisabled = false) :
    ∃ r, readerManagerPass sha256 pl cfg clk (LoopEvent.Scanned ⟨none, none⟩) l st = some r
      ∧ r.locals.candidateForRemove = false ∧ r.locals.cardRemovalTime = Time.zero := by
  obtain ⟨l1, hl1⟩ : ∃ l1, removalCountdown sha256 cfg clk { l with newScanned := none }
      = some l1 :=
    ⟨_, removalCountdown_of_not_candidate sha256 cfg clk { l with newScanned := none } hc⟩
  obtain ⟨_, hns, _, _⟩ := removalCountdown_frame hl1
  dsimp only at hns
  have hr : readerManagerPass sha256 pl cfg clk (LoopEvent.Scanned ⟨none, none⟩) l st
      = some (processScanned sha256 pl cfg clk l1 st) := by
    unfold readerManagerPass
    dsimp only
    rw [hl1]
    simp
  exact ⟨_, hr, processScanned_removal_reset sha256 pl cfg clk l1 st hns hd⟩

/-- C15, the code at the failing input: exit on removal is enabled with a
delay of 3 seconds, the launcher is enabled, the title `SNES` runs with
`cardA` as loaded software and no removal is pending; the card is removed at
`t0`.  The pass ends with `candidateForRemove = false` and `cardRemovalTime`
zero: the countdown it started is gone. -/
theorem removal_pass_resets_countdown :
    cfgExit3.GetExitGame = true ∧ 0 < cfgExit3.GetExitGameDelay
      ∧ stCardA.IsLauncherDisabled = false ∧ plGame.IsLauncherActive = true
      ∧ localsLoadedA.candidateForRemove = false
      ∧ (readerManagerPass toyDigest plGame cfgExit3 (clkAt 100 0)
            (LoopEvent.Scanned ⟨none, none⟩) localsLoadedA stCardA).map
          (fun r => (r.locals.candidateForRemove, r.locals.cardRemovalTime))
        = some (false, Time.zero) := by
  decide

/-- C17: the software notification is a pure fingerprint update.  For every
loop state and every token received from `lsq`, the pass is defined, sets
`loadedSoftware` to the fingerprint of the token, leaves every other local
(`candidateForRemove`, `cardRemovalTime`, `lastLauncherName`, `lastError`,
`newScanned`) and the `State` as they are, and makes no call at all: no
enqueue, no `KillLauncher`, no sound. -/
theorem software_notification_pass (sha256 : String → String) (pl : Platform)
    (cfg : UserConfig) (clk : Clock) (l : Locals) (st : State) (softwareToken : Token) :
    ∃ r, readerManagerPass sha256 pl cfg clk (LoopEvent.Software softwareToken) l st = some r
      ∧ r.locals.loadedSoftware = tokenHash sha256 softwareToken
      ∧ r.locals.candidateForRemove = l.candidateForRemove
      ∧ r.locals.cardRemovalTime = l.cardRemovalTime
      ∧ r.locals.lastLauncherName = l.lastLauncherName
      ∧ r.locals.lastError = l.lastError
      ∧ r.locals.newScanned = l.newScanned
      ∧ r.st = st ∧ r.effects = [] :=
  ⟨_, rfl, rfl, rfl, rfl, rfl, rfl, rfl, rfl, rfl⟩

/-- C16: the launch path of an accepted token.  A pass processes a scan that
carries the token `tok` and no error; `l1` are the locals once the removal
countdown is updated.  Where `shouldExit`, called as on line 166, returns
false, the launcher is enabled and the fingerprint of `tok` is not
`loadedSoftware` as it stands after the menu reset, the pass is defined; it
calls `SetActiveCard` with `tok`, then plays the success sound, then enqueues
`tok`, and makes no other call: one success sound, one enqueue, of `tok`, and
no `KillLauncher`; and it ends with `candidateForRemove = false` and
`cardRemovalTime` zero. -/
theorem accepted_token_pass (sha256 : String → String) (pl : Platform) (cfg : UserConfig)
    (clk : Clock) (l : Locals) (st : State) (tok : Token) (l1 : Locals)
    (hl1 : removalCountdown sha256 cfg clk { l with newScanned := some tok } = some l1)
    (hse : shouldExit pl l1.candidateForRemove cfg (st.SetActiveCard tok).1
      l1.cardRemovalTime clk.t2 = false)
    (hd : st.IsLauncherDisabled = false)
    (hne : tokenHash sha256 tok ≠ (menuReset pl l1).loadedSoftware) :
    ∃ r, readerManagerPass sha256 pl cfg clk (LoopEvent.Scanned ⟨some tok, none⟩) l st = some r
      ∧ r.st = (st.SetActiveCard tok).1
      ∧ r.effects = (st.SetActiveCard tok).2.map Effect.OnState
          ++ [Effect.PlaySuccessSound, Effect.Enqueue tok]
      ∧ r.effects.count Effect.PlaySuccessSound = 1
      ∧ r.effects.count (Effect.Enqueue tok) = 1
      ∧ (∀ x, Effect.Enqueue x ∈ r.effects → x = tok)
      ∧ Effect.KillLauncher ∉ r.effects
      ∧ r.locals.candidateForRemove = false ∧ r.locals.cardRemovalTime = Time.zero := by
  obtain ⟨_, hns, _, _⟩ := removalCountdown_frame hl1
  dsimp only at hns
  have hr : readerManagerPass sha256 pl cfg clk (LoopEvent.Scanned ⟨some tok, none⟩) l st
      = some (processScanned sha256 pl cfg clk l1 st) := by
    unfold readerManagerPass
    dsimp only
    rw [hl1]
    simp
  have hup : updateActiveCard l1.newScanned st = st.SetActiveCard tok := by rw [hns]; rfl
  have hd1 : (st.SetActiveCard tok).1.IsLauncherDisabled = false := by
    unfold State.IsLauncherDisabled at *
    rw [(SetActiveCard_flags st tok).1]; exact hd
  have hnm : (menuReset pl l1).newScanned = some tok := by
    rcases menuReset_eq pl l1 with ⟨_, _, hm⟩ | ⟨_, hm⟩ <;> rw [hm] <;> exact hns
  have hnl : isLoadedSoftware sha256
      { menuReset pl l1 with lastLauncherName := pl.GetActiveLauncher } = false := by
    simp only [isLoadedSoftware, hnm]
    simpa using fun h => hne h.symm
  have hps : processScanned sha256 pl cfg clk l1 st
      = ⟨{ ({ menuReset pl l1 with lastLauncherName := pl.GetActiveLauncher } : Locals) with
            cardRemovalTime := Time.zero, candidateForRemove := false },
         (st.SetActiveCard tok).1,
         (st.SetActiveCard tok).2.map Effect.OnState
           ++ [Effect.PlaySuccessSound, Effect.Enqueue tok]⟩ := by
    unfold processScanned
    dsimp only
    rw [hup, hse, hnl, hd1]
    simp [enqueueScanned, hnm]
  refine ⟨_, hr, ?_, ?_, ?_, ?_, ?_, ?_, ?_, ?_⟩
  · rw [hps]
  · rw [hps]
  · rw [hps]
    simp [List.count_append, List.count_eq_zero_of_not_mem (success_not_mem_onState _)]
  · rw [hps]
    simp [List.count_append, List.count_eq_zero_of_not_mem (enqueue_not_mem_onState _ _)]
  · rw [hps]
    intro x hx
    simpa using hx
  · rw [hps]
    simp
  · rw [hps]
  · rw [hps]

/-- Witness of C16: the first scan of `cardA` while a title runs. -/
theorem accepted_token_pass_witness :
    ∃ r, readerManagerPass toyDigest plGame cfgExit3 (clkAt 0 0)
          (LoopEvent.Scanned ⟨some cardA, none⟩) Locals.zero State.zero = some r
      ∧ r.st = (State.zero.SetActiveCard cardA).1
      ∧ r.effects = (State.zero.SetActiveCard cardA).2.map Effect.OnState
          ++ [Effect.PlaySuccessSound, Effect.Enqueue cardA]
      ∧ r.effects.count Effect.PlaySuccessSound = 1
      ∧ r.effects.count (Effect.Enqueue cardA) = 1
      ∧ (∀ x, Effect.Enqueue x ∈ r.effects → x = cardA)
      ∧ Effect.KillLauncher ∉ r.effects
      ∧ r.locals.candidateForRemove = false ∧ r.locals.cardRemovalTime = Time.zero :=
  accepted_token_pass toyDigest plGame cfgExit3 (clkAt 0 0) Locals.zero State.zero cardA
    { Locals.zero with newScanned := some cardA } (by decide) (by decide) rfl (by decide)

/-! ## Nil dereference and the removal time -/

/-- With exit on removal enabled, a pass that processes a scan without token
and without error while a removal is pending is not defined, whatever the
rest is: line 151 evaluates `*newScanned` with `newScanned == nil`. -/
theorem removal_while_pending_undefined (sha256 : String → String) (pl : Platform)
    (cfg : UserConfig) (clk : Clock) (l : Locals) (st : State)
    (he : cfg.GetExitGame = true) (hc : l.candidateForRemove = true) :
    readerManagerPass sha256 pl cfg clk (LoopEvent.Scanned ⟨none, none⟩) l st = none := by
  simp [readerManagerPass, removalCountdown, he, hc]

/-- C18, the code at the failing input: exit on removal is enabled and the
launcher is disabled.  From the locals as declared before the loop, a scan
without token starts the countdown, and the pass ends on line 212 with the
removal pending.  On the next scan without token the pass is not defined:
line 151 evaluates `*newScanned` with `newScanned == nil`; so the run of the
two passes is not defined. -/
theorem second_removal_dereferences_nil :
    readerManagerPass toyDigest plGame cfgExit3 (clkAt 100 0)
        (LoopEvent.Scanned ⟨none, none⟩) Locals.zero stZeroDisabled
      = some ⟨localsPending, stZeroDisabled, []⟩
      ∧ readerManagerPass toyDigest plGame cfgExit3 (clkAt 101 0)
          (LoopEvent.Scanned ⟨none, none⟩) localsPending stZeroDisabled = none
      ∧ readerManager toyDigest cfgExit3
          [⟨plGame, clkAt 100 0, LoopEvent.Scanned ⟨none, none⟩⟩,
           ⟨plGame, clkAt 101 0, LoopEvent.Scanned ⟨none, none⟩⟩]
          Locals.zero stZeroDisabled = none := by
  decide

/-- The removal countdown keeps the invariant "a pending removal has a
removal time", where the clock does not read the zero time. -/
theorem removalCountdown_removalTime {sha256 : String → String} {cfg : UserConfig}
    {clk : Clock} {l l1 : Locals} (hclk : clk.t1.IsZero = false)
    (hinv : l.candidateForRemove = true → l.cardRemovalTime.IsZero = false)
    (h : removalCountdown sha256 cfg clk l = some l1) :
    l1.candidateForRemove = true → l1.cardRemovalTime.IsZero = false := by
  unfold removalCountdown at h
  split at h
  · split at h
    · cases h; intro _; exact hclk
    · split at h
      · split at h
        · cases h
        · split at h
          · cases h; intro hc; cases hc
          · cases h; exact hinv
      · cases h; exact hinv
  · cases h; exact hinv

/-- Lines 158-227 keep the invariant "a pending removal has a removal
time". -/
theorem processScanned_removalTime (sha256 : String → String) (pl : Platform)
    (cfg : UserConfig) (clk : Clock) (l1 : Locals) (st : State)
    (hinv : l1.candidateForRemove = true → l1.cardRemovalTime.IsZero = false) :
    (processScanned sha256 pl cfg clk l1 st).locals.candidateForRemove = true →
      (processScanned sha256 pl cfg clk l1 st).locals.cardRemovalTime.IsZero = false := by
  have hm : (menuReset pl l1).candidateForRemove = true →
      (menuReset pl l1).cardRemovalTime.IsZero = false := by
    rcases menuReset_eq pl l1 with ⟨_, _, hm⟩ | ⟨_, hm⟩
    · rw [hm]; intro hc; cases hc
    · rw [hm]; exact hinv
  unfold processScanned
  dsimp only
  split
  · intro hc; cases hc
  · split
    · intro hc; cases hc
    · split
      · exact hm
      · intro hc; cases hc

/-- A pass keeps the invariant "a pending removal has a removal time", where
the clock does not read the zero time. -/
theorem readerManagerPass_removalTime {sha256 : String → String} {pl : Platform}
    {cfg : UserConfig} {clk : Clock} {ev : LoopEvent} {l : Locals} {st : State}
    {r : PassResult} (hclk : clk.t1.IsZero = false)
    (hinv : l.candidateForRemove = true → l.cardRemovalTime.IsZero = false)
    (h : readerManagerPass sha256 pl cfg clk ev l st = some r) :
    r.locals.candidateForRemove = true → r.locals.cardRemovalTime.IsZero = false := by
  unfold readerManagerPass at h
  split at h
  · cases h; exact hinv
  · cases h; exact hinv
  · rename_i t
    split at h
    · cases h; exact hinv
    · split at h
      · cases h
      · rename_i l1 hl1
        cases h
        exact processScanned_removalTime sha256 pl cfg clk l1 st
          (@removalCountdown_removalTime sha256 cfg clk { l with newScanned := t.Token } l1
            hclk hinv hl1)

/-- In every loop state that can be reached, a pending removal has a removal
time. -/
theorem LoopReachable.removalTime {sha256 : String → String} {l : Locals}
    (hl : LoopReachable sha256 l) :
    l.candidateForRemove = true → l.cardRemovalTime.IsZero = false := by
  induction hl with
  | init => intro hc; cases hc
  | pass pl cfg clk ev st r _ hclk hr ih => exact readerManagerPass_removalTime hclk ih hr

/-- With a removal pending and a removal time that is not zero, `shouldExit`
is the conjunction of its other guards: the guard on the zero time plays no
part. -/
theorem shouldExit_of_removalTime (pl : Platform) (cfg : UserConfig) (st : State)
    (removalTime now : Time) (hz : removalTime.IsZero = false) :
    shouldExit pl true cfg st removalTime now
      = (pl.IsLauncherActive && !st.GetLastScanned.FromApi && !st.IsLauncherDisabled
          && decide (cfg.GetExitGameDelay ≤ int8Seconds (Since now removalTime))
          && cfg.GetExitGame && !inExitGameBlocklist pl cfg) := by
  unfold shouldExit
  cases pl.IsLauncherActive <;> cases st.GetLastScanned.FromApi <;>
    cases st.IsLauncherDisabled <;> cases cfg.GetExitGame <;>
    cases inExitGameBlocklist pl cfg <;> simp [hz]

/-- C20: in every loop state reachable from the locals as declared before the
loop, with a clock that never reads the zero time on line 147,
`candidateForRemove = true` implies that `cardRemovalTime` is not the zero
time.  It holds as well once the next pass has updated the removal countdown,
which is where `shouldExit` is called: there, for a removal candidate,
`shouldExit` is the conjunction of its other guards, and the guard on the
zero time suppresses nothing. -/
theorem candidate_has_removalTime (sha256 : String → String) (l : Locals)
    (hl : LoopReachable sha256 l) :
    (l.candidateForRemove = true → l.cardRemovalTime.IsZero = false)
      ∧ ∀ (pl : Platform) (cfg : UserConfig) (clk : Clock) (newScanned : Option Token)
          (st : State) (l1 : Locals),
          clk.t1.IsZero = false →
          removalCountdown sha256 cfg clk { l with newScanned := newScanned } = some l1 →
          l1.candidateForRemove = true →
            l1.cardRemovalTime.IsZero = false
              ∧ shouldExit pl l1.candidateForRemove cfg st l1.cardRemovalTime clk.t2
                = (pl.IsLauncherActive && !st.GetLastScanned.FromApi
                    && !st.IsLauncherDisabled
                    && decide (cfg.GetExitGameDelay
                        ≤ int8Seconds (Since clk.t2 l1.cardRemovalTime))
                    && cfg.GetExitGame && !inExitGameBlocklist pl cfg) := by
  refine ⟨hl.removalTime, ?_⟩
  intro pl cfg clk newScanned st l1 hclk hl1 hc
  have hz : l1.cardRemovalTime.IsZero = false :=
    @removalCountdown_removalTime sha256 cfg clk { l with newScanned := newScanned } l1
      hclk hl.removalTime hl1 hc
  refine ⟨hz, ?_⟩
  rw [hc]
  exact shouldExit_of_removalTime pl cfg st l1.cardRemovalTime clk.t2 hz

/-- Witness of C20: the locals once a card was removed while the launcher was
disabled; the removal is pending and its time is `t0`. -/
theorem candidate_has_removalTime_witness :
    LoopReachable toyDigest localsPending ∧ localsPending.candidateForRemove = true
      ∧ localsPending.cardRemovalTime.IsZero = false :=
  ⟨LoopReachable.pass plGame cfgExit3 (clkAt 100 0) (LoopEvent.Scanned ⟨none, none⟩)
      stZeroDisabled ⟨localsPending, stZeroDisabled, []⟩ LoopReachable.init (by decide)
      (by decide),
   rfl,
   (candidate_has_removalTime toyDigest localsPending
      (LoopReachable.pass plGame cfgExit3 (clkAt 100 0) (LoopEvent.Scanned ⟨none, none⟩)
        stZeroDisabled ⟨localsPending, stZeroDisabled, []⟩ LoopReachable.init (by decide)
        (by decide))).1 rfl⟩

end TapTo
